import Mathlib

/-
Verification of the ZOF (Zero Of Functions) root-finding engine.

The repository has two source files:
  * ZOF_Project/app.py     - the web engine: `safe_eval` plus six solver
    functions returning a dict (either a trace with a verdict, or an
    error-only dict), dispatched by a Flask route.
  * ZOF_Project/ZOF_CLI.py - the CLI engine: the same six algorithms,
    printing each iteration row instead of collecting it, returning nothing.

Modelling decisions (shallow embedding):
  * Python floats are idealised as rationals (`Rat`).  All claim-relevant
    behaviour of the solvers is control flow over exact comparisons that
    the idealisation preserves.
  * `safe_eval func_str` applied at successive points is modelled as an
    abstract evaluator `f : Rat -> Option Rat` (`none` is Python `None`,
    the value `safe_eval` returns when the evaluation raised).
  * Python's `round(v, 8)` (round half to even at 8 decimal places) is
    modelled by `pyRound8`, and Python's `abs` by `pyAbs`.
  * A solver call in app.py returns one of: an error-only dict
    (`WebResult.failure`), a trace dict (`WebResult.result data root`,
    whose `converged` entry is `root is not None`), or it raises an
    uncaught Python exception (`WebResult.raised`), which in the real
    program escapes the solver to the route's blanket
    `except Exception` handler.
  * A CLI solver produces the list of rows it passed to `print_row`
    plus a terminal outcome (`CliOutcome`).
-/

namespace ZOF

/-- Python's `abs` on a (rational-idealised) float. -/
def pyAbs (q : Rat) : Rat := if q < 0 then -q else q

/-- Round half to even on an exact rational: the idealisation of Python's
`round` to an integer. -/
def roundHalfEven (q : Rat) : Int :=
  if q - ⌊q⌋ < 1/2 then ⌊q⌋
  else if 1/2 < q - ⌊q⌋ then ⌊q⌋ + 1
  else if ⌊q⌋ % 2 = 0 then ⌊q⌋ else ⌊q⌋ + 1

/-- Python's `round(v, 8)` (banker's rounding at 8 decimal places),
idealised over the rationals. -/
def pyRound8 (q : Rat) : Rat := (roundHalfEven (q * 10^8) : Rat) / 10^8

/-- One row of the web engine's per-iteration trace: the model of the dict
`{"iter": i, "root": round(..,8), "func": round(..,8), "error": round(..,8)}`
appended to `data` by every solver in app.py. -/
structure IterationRecord where
  iter : Nat
  root : Rat
  func : Rat
  error : Rat
deriving DecidableEq, Repr

/-- The value a solver call in app.py produces as observed by its caller:
an error-only dict, a trace dict (`converged` is `root is not None`,
app.py line 54 and its copies), or an uncaught Python exception escaping
the solver to the route handler. -/
inductive WebResult where
  | failure (msg : String)
  | result (data : List IterationRecord) (root : Option Rat)
  | raised (exc : String)
deriving DecidableEq, Repr

/-- The `data` list of a solver's returned dict; an error-only dict carries
no records, and a raised exception delivers none either. -/
def WebResult.recordsOf : WebResult → List IterationRecord
  | .result data _ => data
  | _ => []

/-- The `error` entry of the returned dict, when present. -/
def WebResult.errMsg : WebResult → Option String
  | .failure msg => some msg
  | _ => none

/-- The `converged` entry of a trace dict: `root is not None`
(app.py line 54 and its copies); an error-only dict has no such entry. -/
def WebResult.convergedFlag : WebResult → Bool
  | .result _ root => root.isSome
  | _ => false

/-- The record each app.py solver appends: every numeric field is passed
through `round(.., 8)` at append time (app.py lines 37-42 and copies). -/
def mkRecord (i : Nat) (est fv err : Rat) : IterationRecord :=
  ⟨i, pyRound8 est, pyRound8 fv, pyRound8 err⟩

/-! ### The six web solvers (app.py) -/

/-- The bracket update of bisection (app.py lines 48-52, ZOF_CLI.py lines
59-63): `if fa*fc < 0: b = c else: a = c; fa = fc`.  Returns the new
`(a, b, fa)`. -/
def bisectionUpdate (a b fa c fc : Rat) : Rat × Rat × Rat :=
  if fa * fc < 0 then (a, c, fa) else (c, b, fc)

/-- The loop of `solve_bisection` (app.py lines 32-53).  `fuel` counts the
remaining passes of `for i in range(1, max_iter+1)`, `i` is the 1-based
index of the next pass, `acc` the `data` list built so far.  A `None`
from `safe_eval` at the midpoint reaches `round(fc, 8)` (line 40) and
raises `TypeError` - there is no in-loop `None` check. -/
def bisectionLoop (f : Rat → Option Rat) (tol : Rat) :
    Nat → Nat → Rat → Rat → Rat → List IterationRecord → WebResult
  | 0, _, _, _, _, acc => .result acc none
  | fuel+1, i, a, b, fa, acc =>
    let c := (a + b) / 2
    match f c with
    | none => .raised ("TypeError")
    | some fc =>
      let err := pyAbs (b - a)
      let acc' := acc ++ [mkRecord i c fc err]
      if pyAbs fc < tol ∨ err < tol then .result acc' (some c)
      else
        let s := bisectionUpdate a b fa c fc
        bisectionLoop f tol fuel (i+1) s.1 s.2.1 s.2.2 acc'

/-- `solve_bisection` (app.py lines 21-54), with `safe_eval func_str`
abstracted as `f`: checks `fa is None or fb is None`, then the sign
precondition, then runs the loop on an empty `data`. -/
def solve_bisection (f : Rat → Option Rat) (a b tol : Rat) (max_iter : Nat) :
    WebResult :=
  match f a, f b with
  | none, _ => .failure ("Invalid function or value.")
  | some _, none => .failure ("Invalid function or value.")
  | some fa, some fb =>
    if fa * fb ≥ 0 then
      .failure ("Bisection fails: f(a) and f(b) must have opposite signs.")
    else bisectionLoop f tol max_iter 1 a b fa []

/-- The bracket update of regula falsi (app.py lines 82-87, ZOF_CLI.py
lines 93-98): `if fa*fc < 0: b = c; fb = fc else: a = c; fa = fc`.
Returns the new `(a, b, fa, fb)`. -/
def regulaUpdate (a b fa fb c fc : Rat) : Rat × Rat × Rat × Rat :=
  if fa * fc < 0 then (a, c, fa, fc) else (c, b, fc, fb)

/-- The loop of `solve_regula_falsi` (app.py lines 64-89).  The division
`(a*fb - b*fa) / (fb - fa)` raises `ZeroDivisionError` when `fb == fa`,
and a `None` from `safe_eval` at `c` reaches `round(fc, 8)` and raises
`TypeError`; neither is checked in the source. -/
def regulaLoop (f : Rat → Option Rat) (tol : Rat) :
    Nat → Nat → Rat → Rat → Rat → Rat → Rat → List IterationRecord → WebResult
  | 0, _, _, _, _, _, _, acc => .result acc none
  | fuel+1, i, a, b, fa, fb, prev_c, acc =>
    if fb - fa = 0 then .raised ("ZeroDivisionError")
    else
      let c := (a * fb - b * fa) / (fb - fa)
      match f c with
      | none => .raised ("TypeError")
      | some fc =>
        let err := pyAbs (c - prev_c)
        let acc' := acc ++ [mkRecord i c fc err]
        if pyAbs fc < tol ∨ err < tol then .result acc' (some c)
        else
          let s := regulaUpdate a b fa fb c fc
          regulaLoop f tol fuel (i+1) s.1 s.2.1 s.2.2.1 s.2.2.2 c acc'

/-- `solve_regula_falsi` (app.py lines 56-90).  Unlike `solve_bisection`
there is no `None` check on `fa`/`fb` (lines 58-61): when either
evaluation failed, `fa * fb` is `None * float` and raises `TypeError`
out of the solver. -/
def solve_regula_falsi (f : Rat → Option Rat) (a b tol : Rat)
    (max_iter : Nat) : WebResult :=
  match f a, f b with
  | some fa, some fb =>
    if fa * fb ≥ 0 then
      .failure ("Regula Falsi fails: f(a) and f(b) must have opposite signs.")
    else regulaLoop f tol max_iter 1 a b fa fb a []
  | _, _ => .raised ("TypeError")

/-- The loop of `solve_secant` (app.py lines 96-119): per pass it checks
`f0 is None or f1 is None` (line 100), then the zero secant denominator
(line 101); a `None` at the new point `x2` reaches `round(f2, 8)` and
raises `TypeError`. -/
def secantLoop (f : Rat → Option Rat) (tol : Rat) :
    Nat → Nat → Rat → Rat → List IterationRecord → WebResult
  | 0, _, _, _, acc => .result acc none
  | fuel+1, i, x0, x1, acc =>
    match f x0, f x1 with
    | some f0, some f1 =>
      if f1 - f0 = 0 then .failure ("Division by zero (f1 - f0 = 0)")
      else
        let x2 := x1 - (f1 * (x1 - x0)) / (f1 - f0)
        match f x2 with
        | none => .raised ("TypeError")
        | some f2 =>
          let err := pyAbs (x2 - x1)
          let acc' := acc ++ [mkRecord i x2 f2 err]
          if pyAbs f2 < tol ∨ err < tol then .result acc' (some x2)
          else secantLoop f tol fuel (i+1) x1 x2 acc'
    | _, _ => .failure ("Eval error")

/-- `solve_secant` (app.py lines 92-120). -/
def solve_secant (f : Rat → Option Rat) (x0 x1 tol : Rat) (max_iter : Nat) :
    WebResult :=
  secantLoop f tol max_iter 1 x0 x1 []

/-- The loop of `solve_newton` (app.py lines 126-148).  The order of the
guards follows the source exactly: `if f_prime0 == 0` (line 130, and
Python's `None == 0` is `False`) comes before
`if f0 is None or f_prime0 is None` (line 131).  A `None` at the new
point `x1` reaches `round(f1, 8)` and raises `TypeError`. -/
def newtonLoop (f fp : Rat → Option Rat) (tol : Rat) :
    Nat → Nat → Rat → List IterationRecord → WebResult
  | 0, _, _, acc => .result acc none
  | fuel+1, i, x0, acc =>
    if fp x0 = some 0 then .failure ("Derivative is zero. Method fails.")
    else
      match f x0, fp x0 with
      | some f0, some fp0 =>
        let x1 := x0 - f0 / fp0
        match f x1 with
        | none => .raised ("TypeError")
        | some f1 =>
          let err := pyAbs (x1 - x0)
          let acc' := acc ++ [mkRecord i x1 f1 err]
          if pyAbs f1 < tol ∨ err < tol then .result acc' (some x1)
          else newtonLoop f fp tol fuel (i+1) x1 acc'
      | _, _ => .failure ("Eval error")

/-- `solve_newton` (app.py lines 122-149), with the derivative expression
abstracted as a second evaluator `fp`. -/
def solve_newton (f fp : Rat → Option Rat) (x0 tol : Rat) (max_iter : Nat) :
    WebResult :=
  newtonLoop f fp tol max_iter 1 x0 []

/-- The loop of `solve_fixed_point` (app.py lines 155-174): evaluation
failure on `g` is a reported failure (line 157); after the error check
and the state shift, `if x0 > 1e10` (line 173) reports divergence.  The
comparison is on the signed value, exactly as in the source. -/
def fixedPointLoop (g : Rat → Option Rat) (tol : Rat) :
    Nat → Nat → Rat → List IterationRecord → WebResult
  | 0, _, _, acc => .result acc none
  | fuel+1, i, x0, acc =>
    match g x0 with
    | none => .failure ("Eval error")
    | some x1 =>
      let err := pyAbs (x1 - x0)
      let acc' := acc ++ [mkRecord i x1 x1 err]
      if err < tol then .result acc' (some x1)
      else if x1 > 10^10 then .failure ("Divergence detected.")
      else fixedPointLoop g tol fuel (i+1) x1 acc'

/-- `solve_fixed_point` (app.py lines 151-175). -/
def solve_fixed_point (g : Rat → Option Rat) (x0 tol : Rat) (max_iter : Nat) :
    WebResult :=
  fixedPointLoop g tol max_iter 1 x0 []

/-- The loop of `solve_mod_secant` (app.py lines 181-203).  There is no
`None` check: `denom = f0_delta - f0` (line 185) raises `TypeError` when
either evaluation failed, and a `None` at the new point reaches
`round(f1, 8)`. -/
def modSecantLoop (f : Rat → Option Rat) (delta tol : Rat) :
    Nat → Nat → Rat → List IterationRecord → WebResult
  | 0, _, _, acc => .result acc none
  | fuel+1, i, x0, acc =>
    match f x0, f (x0 + delta * x0) with
    | some f0, some f0d =>
      if f0d - f0 = 0 then .failure ("Division by zero")
      else
        let x1 := x0 - (delta * x0 * f0) / (f0d - f0)
        match f x1 with
        | none => .raised ("TypeError")
        | some f1 =>
          let err := pyAbs (x1 - x0)
          let acc' := acc ++ [mkRecord i x1 f1 err]
          if pyAbs f1 < tol ∨ err < tol then .result acc' (some x1)
          else modSecantLoop f delta tol fuel (i+1) x1 acc'
    | _, _ => .raised ("TypeError")

/-- `solve_mod_secant` (app.py lines 177-204). -/
def solve_mod_secant (f : Rat → Option Rat) (x0 delta tol : Rat)
    (max_iter : Nat) : WebResult :=
  modSecantLoop f delta tol max_iter 1 x0 []

/-! ### The six CLI solvers (ZOF_CLI.py)

A CLI solver prints a row per iteration and returns nothing; its
observable behaviour is the sequence of `print_row` calls plus how it
ends.  Rows carry the raw (unrounded) values passed to `print_row`. -/

/-- One `print_row(iter, x, fx, err)` call of ZOF_CLI.py (line 26),
with the raw values passed in. -/
structure CliRow where
  iter : Nat
  x : Rat
  fx : Rat
  err : Rat
deriving DecidableEq, Repr

/-- How a CLI solver run ends: convergence message, the
"Max iterations reached." message, an error message, an uncaught Python
exception, or the bare `return` of `fixed_point` on evaluation failure
(ZOF_CLI.py line 166), which prints nothing. -/
inductive CliOutcome where
  | converged (root : Rat)
  | maxIter
  | failed (msg : String)
  | raised (exc : String)
  | evalAbort
deriving DecidableEq, Repr

/-- Loop of `bisection` (ZOF_CLI.py lines 48-63): identical control flow
to the web loop, but the row keeps the raw values (`print_row` formats a
`None` with `:.8f` and would raise `TypeError`). -/
def bisectionCliLoop (f : Rat → Option Rat) (tol : Rat) :
    Nat → Nat → Rat → Rat → Rat → List CliRow → List CliRow × CliOutcome
  | 0, _, _, _, _, rows => (rows, .maxIter)
  | fuel+1, i, a, b, fa, rows =>
    let c := (a + b) / 2
    match f c with
    | none => (rows, .raised ("TypeError"))
    | some fc =>
      let err := pyAbs (b - a)
      let rows' := rows ++ [⟨i, c, fc, err⟩]
      if pyAbs fc < tol ∨ err < tol then (rows', .converged c)
      else
        let s := bisectionUpdate a b fa c fc
        bisectionCliLoop f tol fuel (i+1) s.1 s.2.1 s.2.2 rows'

/-- `bisection` (ZOF_CLI.py lines 31-65): checks `fa is None or fb is
None`, then the sign precondition, then loops. -/
def bisection_cli (f : Rat → Option Rat) (a b tol : Rat) (max_iter : Nat) :
    List CliRow × CliOutcome :=
  match f a, f b with
  | none, _ => ([], .failed ("Error: Could not evaluate function."))
  | some _, none => ([], .failed ("Error: Could not evaluate function."))
  | some fa, some fb =>
    if fa * fb ≥ 0 then ([], .failed ("Error: f(a) and f(b) must have opposite signs."))
    else bisectionCliLoop f tol max_iter 1 a b fa []

/-- Loop of `regula_falsi` (ZOF_CLI.py lines 81-99): same structure as
the web loop. -/
def regulaCliLoop (f : Rat → Option Rat) (tol : Rat) :
    Nat → Nat → Rat → Rat → Rat → Rat → Rat → List CliRow → List CliRow × CliOutcome
  | 0, _, _, _, _, _, _, rows => (rows, .maxIter)
  | fuel+1, i, a, b, fa, fb, prev_c, rows =>
    if fb - fa = 0 then (rows, .raised ("ZeroDivisionError"))
    else
      let c := (a * fb - b * fa) / (fb - fa)
      match f c with
      | none => (rows, .raised ("TypeError"))
      | some fc =>
        let err := pyAbs (c - prev_c)
        let rows' := rows ++ [⟨i, c, fc, err⟩]
        if pyAbs fc < tol ∨ err < tol then (rows', .converged c)
        else
          let s := regulaUpdate a b fa fb c fc
          regulaCliLoop f tol fuel (i+1) s.1 s.2.1 s.2.2.1 s.2.2.2 c rows'

/-- `regula_falsi` (ZOF_CLI.py lines 67-101): like the web version it has
no `None` check before `fa * fb`, so an evaluation failure at an
endpoint raises `TypeError`. -/
def regula_falsi_cli (f : Rat → Option Rat) (a b tol : Rat)
    (max_iter : Nat) : List CliRow × CliOutcome :=
  match f a, f b with
  | some fa, some fb =>
    if fa * fb ≥ 0 then ([], .failed ("Error: f(a) and f(b) must have opposite signs."))
    else regulaCliLoop f tol max_iter 1 a b fa fb a []
  | _, _ => ([], .raised ("TypeError"))

/-- Loop of `secant` (ZOF_CLI.py lines 108-126): unlike the web version
there is no `None` check, so `f1 - f0` raises `TypeError` when an
endpoint evaluation failed. -/
def secantCliLoop (f : Rat → Option Rat) (tol : Rat) :
    Nat → Nat → Rat → Rat → List CliRow → List CliRow × CliOutcome
  | 0, _, _, _, rows => (rows, .maxIter)
  | fuel+1, i, x0, x1, rows =>
    match f x0, f x1 with
    | some f0, some f1 =>
      if f1 - f0 = 0 then (rows, .failed ("Error: Division by zero (f(x1) - f(x0) = 0)."))
      else
        let x2 := x1 - (f1 * (x1 - x0)) / (f1 - f0)
        match f x2 with
        | none => (rows, .raised ("TypeError"))
        | some f2 =>
          let err := pyAbs (x2 - x1)
          let rows' := rows ++ [⟨i, x2, f2, err⟩]
          if pyAbs f2 < tol ∨ err < tol then (rows', .converged x2)
          else secantCliLoop f tol fuel (i+1) x1 x2 rows'
    | _, _ => (rows, .raised ("TypeError"))

/-- `secant` (ZOF_CLI.py lines 103-128). -/
def secant_cli (f : Rat → Option Rat) (x0 x1 tol : Rat) (max_iter : Nat) :
    List CliRow × CliOutcome :=
  secantCliLoop f tol max_iter 1 x0 x1 []

/-- Loop of `newton_raphson` (ZOF_CLI.py lines 135-153): the
`f_prime0 == 0` check comes first (line 139, `None == 0` is `False`);
there is no `None` check at all, so `x0 - (f0 / f_prime0)` raises
`TypeError` when either evaluation failed. -/
def newtonCliLoop (f fp : Rat → Option Rat) (tol : Rat) :
    Nat → Nat → Rat → List CliRow → List CliRow × CliOutcome
  | 0, _, _, rows => (rows, .maxIter)
  | fuel+1, i, x0, rows =>
    if fp x0 = some 0 then (rows, .failed ("Error: Derivative is zero. Method fails."))
    else
      match f x0, fp x0 with
      | some f0, some fp0 =>
        let x1 := x0 - f0 / fp0
        match f x1 with
        | none => (rows, .raised ("TypeError"))
        | some f1 =>
          let err := pyAbs (x1 - x0)
          let rows' := rows ++ [⟨i, x1, f1, err⟩]
          if pyAbs f1 < tol ∨ err < tol then (rows', .converged x1)
          else newtonCliLoop f fp tol fuel (i+1) x1 rows'
      | _, _ => (rows, .raised ("TypeError"))

/-- `newton_raphson` (ZOF_CLI.py lines 130-155); `derive_eval` is
`safe_eval` on the derivative string (line 17-19), abstracted as `fp`. -/
def newton_raphson_cli (f fp : Rat → Option Rat) (x0 tol : Rat)
    (max_iter : Nat) : List CliRow × CliOutcome :=
  newtonCliLoop f fp tol max_iter 1 x0 []

/-- Loop of `fixed_point` (ZOF_CLI.py lines 164-182): a `None` from `g`
is a bare `return` printing nothing (line 166); after the convergence
check and the state shift, `if x0 > 1e10` (line 178) reports likely
divergence.  The comparison is on the signed value, as in the source. -/
def fixedPointCliLoop (g : Rat → Option Rat) (tol : Rat) :
    Nat → Nat → Rat → List CliRow → List CliRow × CliOutcome
  | 0, _, _, rows => (rows, .maxIter)
  | fuel+1, i, x0, rows =>
    match g x0 with
    | none => (rows, .evalAbort)
    | some x1 =>
      let err := pyAbs (x1 - x0)
      let rows' := rows ++ [⟨i, x1, x1, err⟩]
      if err < tol then (rows', .converged x1)
      else if x1 > 10^10 then
        (rows', .failed ("Values getting too large. Method likely diverging."))
      else fixedPointCliLoop g tol fuel (i+1) x1 rows'

/-- `fixed_point` (ZOF_CLI.py lines 157-182). -/
def fixed_point_cli (g : Rat → Option Rat) (x0 tol : Rat) (max_iter : Nat) :
    List CliRow × CliOutcome :=
  fixedPointCliLoop g tol max_iter 1 x0 []

/-- Loop of `modified_secant` (ZOF_CLI.py lines 190-210): no `None`
check, so `f0_delta - f0` raises `TypeError` when either evaluation
failed. -/
def modSecantCliLoop (f : Rat → Option Rat) (delta tol : Rat) :
    Nat → Nat → Rat → List CliRow → List CliRow × CliOutcome
  | 0, _, _, rows => (rows, .maxIter)
  | fuel+1, i, x0, rows =>
    match f x0, f (x0 + delta * x0) with
    | some f0, some f0d =>
      if f0d - f0 = 0 then (rows, .failed ("Error: Division by zero in modified secant."))
      else
        let x1 := x0 - (delta * x0 * f0) / (f0d - f0)
        match f x1 with
        | none => (rows, .raised ("TypeError"))
        | some f1 =>
          let err := pyAbs (x1 - x0)
          let rows' := rows ++ [⟨i, x1, f1, err⟩]
          if pyAbs f1 < tol ∨ err < tol then (rows', .converged x1)
          else modSecantCliLoop f delta tol fuel (i+1) x1 rows'
    | _, _ => (rows, .raised ("TypeError"))

/-- `modified_secant` (ZOF_CLI.py lines 184-212). -/
def modified_secant_cli (f : Rat → Option Rat) (x0 delta tol : Rat)
    (max_iter : Nat) : List CliRow × CliOutcome :=
  modSecantCliLoop f delta tol max_iter 1 x0 []

/-! ### The expression text each front end hands to Python's eval -/

/-- The text the web `safe_eval` (app.py lines 8-17) passes to `eval`:
line 14 first runs `func_str.replace('^', '**')`, replacing every caret
with a double star (modelled character by character, which is exactly
Python's `str.replace` on a single-character pattern). -/
def webEvalText (s : String) : String :=
  String.mk (s.data.foldr
    (fun c acc => if c = '^' then '*' :: '*' :: acc else c :: acc) [])

/-- The text the CLI `safe_eval` (ZOF_CLI.py lines 5-15) passes to
`eval`: the input string unchanged - the CLI performs no caret
normalisation (a caret on Python floats is the unsupported XOR operator,
so such an expression raises and evaluates to `None`). -/
def cliEvalText (s : String) : String := s

/-! ### Glue between the two front ends

The web trace rounds every stored field to 8 decimal places; the CLI
prints the same raw values with an 8-decimal format.  `roundRow` sends a
raw CLI row to the record the web engine stores for the same pass, and
the `webOf*` maps send a whole CLI run to the web result it corresponds
to (translating each CLI terminal outcome to the web solver's outcome
for the same condition). -/

/-- The web record storing the 8-dp roundings of a raw CLI row. -/
def roundRow (r : CliRow) : IterationRecord :=
  ⟨r.iter, pyRound8 r.x, pyRound8 r.fx, pyRound8 r.err⟩

/-- The web-bisection result corresponding to a CLI-bisection run. -/
def webOfBis : List CliRow × CliOutcome → WebResult
  | (rows, .converged r) => .result (rows.map roundRow) (some r)
  | (rows, .maxIter) => .result (rows.map roundRow) none
  | (_, .failed m) =>
    if m = ("Error: Could not evaluate function.")
    then .failure ("Invalid function or value.")
    else .failure ("Bisection fails: f(a) and f(b) must have opposite signs.")
  | (_, .raised e) => .raised e
  | (_, .evalAbort) => .failure ("Eval error")

/-- The web-regula-falsi result corresponding to a CLI run. -/
def webOfRegula : List CliRow × CliOutcome → WebResult
  | (rows, .converged r) => .result (rows.map roundRow) (some r)
  | (rows, .maxIter) => .result (rows.map roundRow) none
  | (_, .failed _) =>
    .failure ("Regula Falsi fails: f(a) and f(b) must have opposite signs.")
  | (_, .raised e) => .raised e
  | (_, .evalAbort) => .failure ("Eval error")

/-- The web-secant result corresponding to a CLI run. -/
def webOfSecant : List CliRow × CliOutcome → WebResult
  | (rows, .converged r) => .result (rows.map roundRow) (some r)
  | (rows, .maxIter) => .result (rows.map roundRow) none
  | (_, .failed _) => .failure ("Division by zero (f1 - f0 = 0)")
  | (_, .raised e) => .raised e
  | (_, .evalAbort) => .failure ("Eval error")

/-- The web-Newton result corresponding to a CLI run. -/
def webOfNewton : List CliRow × CliOutcome → WebResult
  | (rows, .converged r) => .result (rows.map roundRow) (some r)
  | (rows, .maxIter) => .result (rows.map roundRow) none
  | (_, .failed _) => .failure ("Derivative is zero. Method fails.")
  | (_, .raised e) => .raised e
  | (_, .evalAbort) => .failure ("Eval error")

/-- The web-fixed-point result corresponding to a CLI run. -/
def webOfFixed : List CliRow × CliOutcome → WebResult
  | (rows, .converged r) => .result (rows.map roundRow) (some r)
  | (rows, .maxIter) => .result (rows.map roundRow) none
  | (_, .failed _) => .failure ("Divergence detected.")
  | (_, .raised e) => .raised e
  | (_, .evalAbort) => .failure ("Eval error")

/-- The web-modified-secant result corresponding to a CLI run. -/
def webOfModSec : List CliRow × CliOutcome → WebResult
  | (rows, .converged r) => .result (rows.map roundRow) (some r)
  | (rows, .maxIter) => .result (rows.map roundRow) none
  | (_, .failed _) => .failure ("Division by zero")
  | (_, .raised e) => .raised e
  | (_, .evalAbort) => .failure ("Eval error")

/-- A piecewise evaluator used by the C2 counterexample: 1 at the origin
and 2 elsewhere (an abstraction of a secant run hitting a flat stretch). -/
def fSplit : Rat → Option Rat := fun x => some (if x = 0 then 1 else 2)

/-! ### A fragment of CPython's `eval` semantics for `safe_eval`

Both `safe_eval`s run `eval(func_str, {"__builtins__": {}}, allowed_locals)`
where `allowed_locals` is `math.__dict__` with an entry `x` added.  An
empty `__builtins__` only empties the namespace consulted *last* for bare
names; it does not restrict attribute access or calls, which operate on
the objects already obtained.  The model below embeds the tiny fragment
of CPython's expression semantics needed to witness this: name lookup in
the allowed namespace, the literal `()`, attribute access, and calls.
The chain `().__class__.__base__.__subclasses__()` is the standard
sandbox escape: it reaches the list of every class in the interpreter,
from which `os._wrap_close` and thus `os.system` are obtained. -/

/-- A Python value reachable in the modelled fragment: a float, a member
of the allowed `math` namespace, and the objects along the standard
dunder escape chain from the tuple literal. -/
inductive PyVal where
  | num (q : Rat)
  | mathMember (s : String)
  | tupleLit
  | classTuple
  | classObject
  | subclassesMethod
  | subclassList
deriving DecidableEq, Repr

/-- Names bound in `math.__dict__` (the allowed namespace), as relevant
to the model; `x` is added by `safe_eval` itself. -/
def mathNames : List String :=
  ["pi", "e", "tau", "inf", "nan", "sqrt", "sin", "cos", "tan", "exp",
   "log", "log10", "log2", "pow", "floor", "ceil", "fabs", "factorial"]

/-- The expression fragment: bare names, the literal `()`, attribute
access, zero-argument calls. -/
inductive PyExpr where
  | name (s : String)
  | emptyTuple
  | attr (obj : PyExpr) (fld : String)
  | call (fn : PyExpr)
deriving DecidableEq, Repr

/-- CPython attribute lookup on the modelled objects: the dunder chain
from the empty tuple.  Attribute access consults the object, not the
eval namespaces, so nothing here is filtered by `allowed_locals` or the
emptied `__builtins__`. -/
def getattrModel : PyVal → String → Option PyVal
  | .tupleLit, s => if s = "__class__" then some .classTuple else none
  | .classTuple, s => if s = "__base__" then some .classObject else none
  | .classObject, s => if s = "__subclasses__" then some .subclassesMethod else none
  | _, _ => none

/-- Calling a modelled object: `object.__subclasses__()` yields the list
of all classes. -/
def callModel : PyVal → Option PyVal
  | .subclassesMethod => some .subclassList
  | _ => none

/-- Evaluation of the fragment under `safe_eval`'s namespaces: a bare
name resolves to `x` or to a `math` member or fails (empty
`__builtins__`), while literals, attribute access and calls are
unrestricted, exactly as in CPython. -/
def pyEvalFrag (x : Rat) : PyExpr → Option PyVal
  | .name s =>
    if s = "x" then some (.num x)
    else if s ∈ mathNames then some (.mathMember s) else none
  | .emptyTuple => some .tupleLit
  | .attr e fld => (pyEvalFrag x e).bind (fun v => getattrModel v fld)
  | .call e => (pyEvalFrag x e).bind callModel

/-- The values the claim permits an expression to reach: the bound `x`
(a float) and members of the pre-approved `math` namespace. -/
def InAllowedNamespace (v : PyVal) : Prop :=
  (∃ q, v = .num q) ∨ ∃ s, s ∈ mathNames ∧ v = .mathMember s

/-- The textbook escape payload `().__class__.__base__.__subclasses__()`. -/
def escapePayload : PyExpr :=
  .call (.attr (.attr (.attr .emptyTuple ("__class__")) ("__base__")) ("__subclasses__"))

/-! ### C1 -/

/-- C1: the claim that `safe_eval` keeps every expression inside the
`x`-plus-`math` namespace is false on the code: evaluation of the
attribute/call chain `().__class__.__base__.__subclasses__()` under
`safe_eval`'s namespaces succeeds and reaches the list of all
interpreter classes, an object outside the allowed namespace (and the
gateway to `os.system`).  `eval` with emptied `__builtins__` blocks only
bare-name lookup, not attribute access. -/
theorem c1_eval_escapes :
    pyEvalFrag 0 escapePayload = some .subclassList ∧
    ¬ InAllowedNamespace .subclassList := by
  constructor
  · rfl
  · rintro (⟨q, hq⟩ | ⟨s, _, hs⟩)
    · exact PyVal.noConfusion hq
    · exact PyVal.noConfusion hs

/-! ### C10 -/

/-- C10: in the web Newton-Raphson solver the zero-derivative guard
(app.py line 130) is checked before the evaluation-failure guard
(line 131), at every iteration: a derivative evaluating to exactly 0
yields the "Derivative is zero" failure even when f itself failed to
evaluate, while a derivative that fails to evaluate (Python `None`,
for which `None == 0` is `False`) yields the "Eval error" report. -/
theorem c10_newton_guard_order (f fp : Rat → Option Rat) (tol : Rat)
    (fuel i : Nat) (x0 : Rat) (acc : List IterationRecord) :
    (fp x0 = some 0 →
      newtonLoop f fp tol (fuel+1) i x0 acc
        = .failure ("Derivative is zero. Method fails.")) ∧
    (fp x0 = none →
      newtonLoop f fp tol (fuel+1) i x0 acc = .failure ("Eval error")) ∧
    (fp x0 = some 0 →
      solve_newton f fp x0 tol (fuel+1)
        = .failure ("Derivative is zero. Method fails.")) ∧
    (fp x0 = none →
      solve_newton f fp x0 tol (fuel+1) = .failure ("Eval error")) := by
  refine ⟨fun h => ?_, fun h => ?_, fun h => ?_, fun h => ?_⟩
  · simp [newtonLoop, h]
  · rcases hf : f x0 with _ | v0 <;> simp [newtonLoop, h, hf]
  · simp [solve_newton, newtonLoop, h]
  · rcases hf : f x0 with _ | v0 <;> simp [solve_newton, newtonLoop, h, hf]

/-- Witness for C10 at concrete inputs: with `f` failing everywhere and
the derivative identically 0, the first guard wins; with the derivative
failing, the evaluation-failure report is produced. -/
theorem c10_witness :
    newtonLoop (fun _ => none) (fun _ => some 0) 1 3 1 0 []
      = .failure ("Derivative is zero. Method fails.") ∧
    newtonLoop (fun _ => some 1) (fun _ => none) 1 3 1 0 []
      = .failure ("Eval error") :=
  ⟨(c10_newton_guard_order (fun _ => none) (fun _ => some 0) 1 2 1 0 []).1 rfl,
   (c10_newton_guard_order (fun _ => some 1) (fun _ => none) 1 2 1 0 []).2.1 rfl⟩

/-! ### C5 -/

/-- C5 counterexample: a fixed-point run with `g(x) = 100*x` from
`x0 = -100`.  The iterate of pass 5 is `-1e12`, whose magnitude exceeds
the 1e10 threshold, yet pass 6 still runs (six records) and the run ends
in the plain exhaustion result, not a divergence failure: the guard
`x0 > 1e10` compares the signed value, so divergence towards large
negative values is never caught, refuting the claim as stated. -/
theorem c5_counterexample :
    solve_fixed_point (fun x => some (100 * x)) (-100) (1/10) 6
      = .result [⟨1,-10000,-10000,9900⟩, ⟨2,-1000000,-1000000,990000⟩,
          ⟨3,-100000000,-100000000,99000000⟩,
          ⟨4,-10000000000,-10000000000,9900000000⟩,
          ⟨5,-1000000000000,-1000000000000,990000000000⟩,
          ⟨6,-100000000000000,-100000000000000,99000000000000⟩] none ∧
    (10:Rat)^10 < pyAbs (-1000000000000) := by
  constructor
  · norm_num [solve_fixed_point, fixedPointLoop, mkRecord, pyRound8,
      roundHalfEven, pyAbs]
  · norm_num [pyAbs]

/-- C5 (amended): the divergence guard compares the new iterate itself -
its signed value, not its magnitude - against 1e10: whenever a pass
produces `x1 > 1e10` without the error criterion triggering, the loop
stops at once with the "Divergence detected." failure, an outcome
distinct from every exhaustion result (which is a data-bearing result
without root).  Iterates diverging to large negative values are not
caught (see the counterexample). -/
theorem c5_divergence_guard (g : Rat → Option Rat) (tol : Rat)
    (fuel i : Nat) (x0 x1 : Rat) (acc : List IterationRecord)
    (hg : g x0 = some x1) (hconv : ¬ pyAbs (x1 - x0) < tol)
    (hbig : x1 > 10^10) :
    fixedPointLoop g tol (fuel+1) i x0 acc = .failure ("Divergence detected.") ∧
    ∀ data, (WebResult.failure ("Divergence detected.")) ≠ .result data none := by
  refine ⟨?_, fun data h => WebResult.noConfusion h⟩
  simp [fixedPointLoop, hg, hconv, hbig]

/-- Witness for C5 (amended) at concrete inputs: `g(x) = 100*x` from
`x0 = 1e9` produces `x1 = 1e11 > 1e10` on the first pass and the loop
reports divergence at once. -/
theorem c5_witness :
    fixedPointLoop (fun x => some (100 * x)) 1 3 1 (10^9) []
      = .failure ("Divergence detected.") :=
  (c5_divergence_guard (fun x => some (100 * x)) 1 2 1 (10^9) (10^11) []
    (by norm_num) (by norm_num [pyAbs]) (by norm_num)).1

/-! ### C2 -/

/-- C2 counterexample: the same secant trajectory from `(0, 1)` appends
its first record on pass 1 (the one-iteration run returns it), but when
the run continues and the zero secant denominator strikes on pass 2, the
web solver returns an error-only dict with no `data` list: the record
appended before the failure is NOT contained in the returned result,
refuting the claim. -/
theorem c2_counterexample :
    solve_secant fSplit 0 1 (1/10) 1 = .result [⟨1, -1, 2, 2⟩] none ∧
    solve_secant fSplit 0 1 (1/10) 5
      = .failure ("Division by zero (f1 - f0 = 0)") ∧
    (solve_secant fSplit 0 1 (1/10) 5).recordsOf = [] := by
  refine ⟨?_, ?_, ?_⟩ <;>
    norm_num [solve_secant, secantLoop, fSplit, mkRecord, pyRound8,
      roundHalfEven, pyAbs, WebResult.recordsOf]

/-- C2 (amended): in the web engine every mid-loop failure - zero secant
denominator, zero derivative, evaluation failure, zero modified-secant
denominator, fixed-point evaluation failure or divergence - returns the
error-only dict and thereby discards every record accumulated so far
(the conclusion does not depend on `acc`, and an error dict carries no
records); the CLI front end, which prints each row when produced, is the
only place the earlier iterations survive. -/
theorem c2_records_discarded :
    (∀ (f : Rat → Option Rat) (tol : Rat) (fuel i : Nat) (x0 x1 : Rat)
        (acc : List IterationRecord) (v0 v1 : Rat),
      f x0 = some v0 → f x1 = some v1 → v1 - v0 = 0 →
      secantLoop f tol (fuel+1) i x0 x1 acc
        = .failure ("Division by zero (f1 - f0 = 0)")) ∧
    (∀ (f : Rat → Option Rat) (tol : Rat) (fuel i : Nat) (x0 x1 : Rat)
        (acc : List IterationRecord),
      f x0 = none ∨ f x1 = none →
      secantLoop f tol (fuel+1) i x0 x1 acc = .failure ("Eval error")) ∧
    (∀ (f fp : Rat → Option Rat) (tol : Rat) (fuel i : Nat) (x0 : Rat)
        (acc : List IterationRecord),
      fp x0 = some 0 →
      newtonLoop f fp tol (fuel+1) i x0 acc
        = .failure ("Derivative is zero. Method fails.")) ∧
    (∀ (f fp : Rat → Option Rat) (tol : Rat) (fuel i : Nat) (x0 : Rat)
        (acc : List IterationRecord),
      (f x0 = none ∧ fp x0 ≠ some 0) ∨ fp x0 = none →
      newtonLoop f fp tol (fuel+1) i x0 acc = .failure ("Eval error")) ∧
    (∀ (g : Rat → Option Rat) (tol : Rat) (fuel i : Nat) (x0 : Rat)
        (acc : List IterationRecord),
      g x0 = none →
      fixedPointLoop g tol (fuel+1) i x0 acc = .failure ("Eval error")) ∧
    (∀ (g : Rat → Option Rat) (tol : Rat) (fuel i : Nat) (x0 x1 : Rat)
        (acc : List IterationRecord),
      g x0 = some x1 → ¬ pyAbs (x1 - x0) < tol → x1 > 10^10 →
      fixedPointLoop g tol (fuel+1) i x0 acc
        = .failure ("Divergence detected.")) ∧
    (∀ (f : Rat → Option Rat) (delta tol : Rat) (fuel i : Nat) (x0 : Rat)
        (acc : List IterationRecord) (v0 vd : Rat),
      f x0 = some v0 → f (x0 + delta * x0) = some vd → vd - v0 = 0 →
      modSecantLoop f delta tol (fuel+1) i x0 acc
        = .failure ("Division by zero")) ∧
    (∀ msg : String, (WebResult.failure msg).recordsOf = []) := by
  refine ⟨?_, ?_, ?_, ?_, ?_, ?_, ?_, fun _ => rfl⟩
  · intro f tol fuel i x0 x1 acc v0 v1 h0 h1 hd
    simp [secantLoop, h0, h1, hd, sub_eq_zero.mp hd]
  · intro f tol fuel i x0 x1 acc h
    rcases h with h | h
    · simp [secantLoop, h]
    · rcases hf : f x0 with _ | v0 <;> simp [secantLoop, hf, h]
  · intro f fp tol fuel i x0 acc h
    simp [newtonLoop, h]
  · intro f fp tol fuel i x0 acc h
    rcases h with ⟨h0, hp⟩ | h
    · rcases hfp : fp x0 with _ | vp
      · simp [newtonLoop, hfp, h0]
      · have hvp : vp ≠ 0 := fun h => hp (by rw [hfp, h])
        simp [newtonLoop, hfp, h0, hvp]
    · rcases hf : f x0 with _ | v0 <;> simp [newtonLoop, hf, h]
  · intro g tol fuel i x0 acc h
    simp [fixedPointLoop, h]
  · intro g tol fuel i x0 x1 acc hg hc hbig
    simp [fixedPointLoop, hg, hc, hbig]
  · intro f delta tol fuel i x0 acc v0 vd h0 hd hz
    simp [modSecantLoop, h0, hd, hz, sub_eq_zero.mp hz]

/-- Witness for C2 (amended): a secant step on the constant evaluator
with a nonempty accumulated trace returns the error-only result, the
accumulated record gone. -/
theorem c2_witness :
    secantLoop (fun _ => some 1) 1 3 2 0 1 [⟨1, 5, 5, 5⟩]
      = .failure ("Division by zero (f1 - f0 = 0)") :=
  c2_records_discarded.1 (fun _ => some 1) 1 2 2 0 1 [⟨1, 5, 5, 5⟩] 1 1
    rfl rfl (by norm_num)

/-! ### C3 -/

/-- C3: the precondition policy of the two bracketing solvers.  For
bisection the claim holds: an evaluation failure at an endpoint or a
same-sign bracket is an error-only return with zero records, before any
iteration.  For regula falsi the same-sign branch also holds, but an
evaluation failure at an endpoint reaches `fa * fb` with a Python
`None`, raising `TypeError` out of the solver - an uncaught fault, where
the spec (sections 4.4 and 7) requires a reported failure like
bisection's: the missing `None` check is a code bug. -/
theorem c3_precondition_policy :
    (∀ (f : Rat → Option Rat) (a b tol : Rat) (n : Nat),
      f a = none →
      solve_bisection f a b tol n = .failure ("Invalid function or value.")) ∧
    (∀ (f : Rat → Option Rat) (a b tol : Rat) (n : Nat) (va : Rat),
      f a = some va → f b = none →
      solve_bisection f a b tol n = .failure ("Invalid function or value.")) ∧
    (∀ (f : Rat → Option Rat) (a b tol : Rat) (n : Nat) (va vb : Rat),
      f a = some va → f b = some vb → va * vb ≥ 0 →
      solve_bisection f a b tol n
        = .failure ("Bisection fails: f(a) and f(b) must have opposite signs.")) ∧
    (∀ (f : Rat → Option Rat) (a b tol : Rat) (n : Nat) (va vb : Rat),
      f a = some va → f b = some vb → va * vb ≥ 0 →
      solve_regula_falsi f a b tol n
        = .failure ("Regula Falsi fails: f(a) and f(b) must have opposite signs.")) ∧
    (∀ (f : Rat → Option Rat) (a b tol : Rat) (n : Nat),
      f a = none →
      solve_regula_falsi f a b tol n = .raised ("TypeError")) ∧
    (∀ (f : Rat → Option Rat) (a b tol : Rat) (n : Nat) (va : Rat),
      f a = some va → f b = none →
      solve_regula_falsi f a b tol n = .raised ("TypeError")) := by
  refine ⟨?_, ?_, ?_, ?_, ?_, ?_⟩
  · intro f a b tol n h; simp [solve_bisection, h]
  · intro f a b tol n va ha hb; simp [solve_bisection, ha, hb]
  · intro f a b tol n va vb ha hb hsign
    simp [solve_bisection, ha, hb, hsign]
  · intro f a b tol n va vb ha hb hsign
    simp [solve_regula_falsi, ha, hb, hsign]
  · intro f a b tol n h
    rcases hb : f b with _ | vb <;> simp [solve_regula_falsi, h, hb]
  · intro f a b tol n va ha hb; simp [solve_regula_falsi, ha, hb]

/-- Witness for C3 at concrete inputs, including the failing input of
the bug: an evaluator failing at `a = -1` (the model of
`safe_eval("log(x)", -1)`) makes `solve_regula_falsi` raise while
`solve_bisection` reports, and a same-sign bracket is reported by both. -/
theorem c3_witness :
    solve_bisection (fun x => if x < 0 then none else some 1) (-1) 1 (1/10) 5
      = .failure ("Invalid function or value.") ∧
    solve_regula_falsi (fun x => if x < 0 then none else some 1) (-1) 1 (1/10) 5
      = .raised ("TypeError") ∧
    solve_bisection (fun x => some (x * x + 1)) 0 1 (1/10) 5
      = .failure ("Bisection fails: f(a) and f(b) must have opposite signs.") ∧
    solve_regula_falsi (fun x => some (x * x + 1)) 0 1 (1/10) 5
      = .failure ("Regula Falsi fails: f(a) and f(b) must have opposite signs.") :=
  ⟨c3_precondition_policy.1 _ (-1) 1 (1/10) 5 (by norm_num),
   c3_precondition_policy.2.2.2.2.1 _ (-1) 1 (1/10) 5 (by norm_num),
   c3_precondition_policy.2.2.1 _ 0 1 (1/10) 5 1 2 (by norm_num) (by norm_num)
     (by norm_num),
   c3_precondition_policy.2.2.2.1 _ 0 1 (1/10) 5 1 2 (by norm_num) (by norm_num)
     (by norm_num)⟩

/-! ### Agreement of the two front ends, loop by loop -/

/-- The web bisection loop agrees with the CLI bisection loop pass by
pass: on a trace whose records are the roundings of the CLI rows, it
returns exactly the web image of the CLI run. -/
theorem bisection_loop_agrees (f : Rat → Option Rat) (tol : Rat) :
    ∀ (fuel i : Nat) (a b fa : Rat) (rows : List CliRow),
      bisectionLoop f tol fuel i a b fa (rows.map roundRow)
        = webOfBis (bisectionCliLoop f tol fuel i a b fa rows) := by
  intro fuel
  induction fuel with
  | zero => intro i a b fa rows; rfl
  | succ n ih =>
    intro i a b fa rows
    rcases hfc : f ((a + b) / 2) with _ | fc
    · simp [bisectionLoop, bisectionCliLoop, hfc, webOfBis]
    · by_cases hc : pyAbs fc < tol ∨ pyAbs (b - a) < tol
      · simp [bisectionLoop, bisectionCliLoop, hfc, hc, webOfBis, roundRow, mkRecord]
      · simp only [bisectionLoop, bisectionCliLoop, hfc, hc, if_false]
        rw [show (rows.map roundRow) ++ [mkRecord i ((a + b) / 2) fc (pyAbs (b - a))]
              = (rows ++ [(⟨i, (a + b) / 2, fc, pyAbs (b - a)⟩ : CliRow)]).map roundRow by
            simp [roundRow, mkRecord]]
        exact ih _ _ _ _ _

/-- The web regula-falsi loop agrees with the CLI loop pass by pass. -/
theorem regula_loop_agrees (f : Rat → Option Rat) (tol : Rat) :
    ∀ (fuel i : Nat) (a b fa fb pc : Rat) (rows : List CliRow),
      regulaLoop f tol fuel i a b fa fb pc (rows.map roundRow)
        = webOfRegula (regulaCliLoop f tol fuel i a b fa fb pc rows) := by
  intro fuel
  induction fuel with
  | zero => intro i a b fa fb pc rows; rfl
  | succ n ih =>
    intro i a b fa fb pc rows
    by_cases hd : fb - fa = 0
    · simp [regulaLoop, regulaCliLoop, hd, webOfRegula]
    · rcases hfc : f ((a * fb - b * fa) / (fb - fa)) with _ | fc
      · simp [regulaLoop, regulaCliLoop, hd, hfc, webOfRegula]
      · by_cases hc : pyAbs fc < tol ∨ pyAbs ((a * fb - b * fa) / (fb - fa) - pc) < tol
        · simp [regulaLoop, regulaCliLoop, hd, hfc, hc, webOfRegula, roundRow, mkRecord]
        · simp only [regulaLoop, regulaCliLoop, hd, hfc, hc, if_false]
          rw [show (rows.map roundRow)
                ++ [mkRecord i ((a * fb - b * fa) / (fb - fa)) fc
                     (pyAbs ((a * fb - b * fa) / (fb - fa) - pc))]
                = (rows ++ [(⟨i, (a * fb - b * fa) / (fb - fa), fc,
                     pyAbs ((a * fb - b * fa) / (fb - fa) - pc)⟩ : CliRow)]).map roundRow by
              simp [roundRow, mkRecord]]
          exact ih _ _ _ _ _ _ _

/-- The web secant loop agrees with the CLI loop pass by pass, provided
the evaluator succeeds at every point (without this the two genuinely
differ: the web loop reports "Eval error" where the CLI loop raises). -/
theorem secant_loop_agrees (f : Rat → Option Rat) (htot : ∀ x, (f x).isSome)
    (tol : Rat) :
    ∀ (fuel i : Nat) (x0 x1 : Rat) (rows : List CliRow),
      secantLoop f tol fuel i x0 x1 (rows.map roundRow)
        = webOfSecant (secantCliLoop f tol fuel i x0 x1 rows) := by
  intro fuel
  induction fuel with
  | zero => intro i x0 x1 rows; rfl
  | succ n ih =>
    intro i x0 x1 rows
    obtain ⟨f0, h0⟩ := Option.isSome_iff_exists.mp (htot x0)
    obtain ⟨f1, h1⟩ := Option.isSome_iff_exists.mp (htot x1)
    by_cases hd : f1 - f0 = 0
    · simp [secantLoop, secantCliLoop, h0, h1, hd, webOfSecant]
    · obtain ⟨f2, h2⟩ :=
        Option.isSome_iff_exists.mp (htot (x1 - (f1 * (x1 - x0)) / (f1 - f0)))
      by_cases hc : pyAbs f2 < tol
          ∨ pyAbs (x1 - (f1 * (x1 - x0)) / (f1 - f0) - x1) < tol
      · simp only [secantLoop, secantCliLoop, h0, h1, hd, h2, if_false]
        rw [if_pos hc, if_pos hc]
        simp [webOfSecant, roundRow, mkRecord]
      · simp only [secantLoop, secantCliLoop, h0, h1, hd, h2, hc, if_false]
        rw [show (rows.map roundRow)
              ++ [mkRecord i (x1 - (f1 * (x1 - x0)) / (f1 - f0)) f2
                   (pyAbs (x1 - (f1 * (x1 - x0)) / (f1 - f0) - x1))]
              = (rows ++ [(⟨i, x1 - (f1 * (x1 - x0)) / (f1 - f0), f2,
                   pyAbs (x1 - (f1 * (x1 - x0)) / (f1 - f0) - x1)⟩ : CliRow)]).map
                  roundRow by
            simp [roundRow, mkRecord]]
        exact ih _ _ _ _

/-- The web Newton loop agrees with the CLI loop pass by pass, provided
both evaluators succeed at every point (without this the two differ: the
web loop reports "Eval error" where the CLI loop raises). -/
theorem newton_loop_agrees (f fp : Rat → Option Rat)
    (htf : ∀ x, (f x).isSome) (htp : ∀ x, (fp x).isSome) (tol : Rat) :
    ∀ (fuel i : Nat) (x0 : Rat) (rows : List CliRow),
      newtonLoop f fp tol fuel i x0 (rows.map roundRow)
        = webOfNewton (newtonCliLoop f fp tol fuel i x0 rows) := by
  intro fuel
  induction fuel with
  | zero => intro i x0 rows; rfl
  | succ n ih =>
    intro i x0 rows
    by_cases hz : fp x0 = some 0
    · simp [newtonLoop, newtonCliLoop, hz, webOfNewton]
    · obtain ⟨f0, h0⟩ := Option.isSome_iff_exists.mp (htf x0)
      obtain ⟨fp0, hp0⟩ := Option.isSome_iff_exists.mp (htp x0)
      have hfp0 : ¬ fp0 = 0 := fun h => hz (by rw [hp0, h])
      obtain ⟨f1, h1⟩ := Option.isSome_iff_exists.mp (htf (x0 - f0 / fp0))
      by_cases hc : pyAbs f1 < tol ∨ pyAbs (x0 - f0 / fp0 - x0) < tol
      · simp only [newtonLoop, newtonCliLoop, h0, hp0, hfp0, h1, if_false,
          Option.some.injEq]
        rw [if_pos hc, if_pos hc]
        simp [webOfNewton, roundRow, mkRecord]
      · simp only [newtonLoop, newtonCliLoop, h0, hp0, hfp0, h1, hc, if_false,
          Option.some.injEq]
        rw [show (rows.map roundRow)
              ++ [mkRecord i (x0 - f0 / fp0) f1 (pyAbs (x0 - f0 / fp0 - x0))]
              = (rows ++ [(⟨i, x0 - f0 / fp0, f1,
                   pyAbs (x0 - f0 / fp0 - x0)⟩ : CliRow)]).map roundRow by
            simp [roundRow, mkRecord]]
        exact ih _ _ _

/-- The web fixed-point loop agrees with the CLI loop pass by pass
(unconditionally: both handle evaluation failure and divergence at the
same program points). -/
theorem fixed_point_loop_agrees (g : Rat → Option Rat) (tol : Rat) :
    ∀ (fuel i : Nat) (x0 : Rat) (rows : List CliRow),
      fixedPointLoop g tol fuel i x0 (rows.map roundRow)
        = webOfFixed (fixedPointCliLoop g tol fuel i x0 rows) := by
  intro fuel
  induction fuel with
  | zero => intro i x0 rows; rfl
  | succ n ih =>
    intro i x0 rows
    rcases hg : g x0 with _ | x1
    · simp [fixedPointLoop, fixedPointCliLoop, hg, webOfFixed]
    · by_cases hc : pyAbs (x1 - x0) < tol
      · simp [fixedPointLoop, fixedPointCliLoop, hg, hc, webOfFixed,
          roundRow, mkRecord]
      · by_cases hbig : x1 > 10^10
        · simp [fixedPointLoop, fixedPointCliLoop, hg, hc, hbig, webOfFixed]
        · simp only [fixedPointLoop, fixedPointCliLoop, hg, hc, hbig, if_false]
          rw [show (rows.map roundRow)
                ++ [mkRecord i x1 x1 (pyAbs (x1 - x0))]
                = (rows ++ [(⟨i, x1, x1, pyAbs (x1 - x0)⟩ : CliRow)]).map roundRow by
              simp [roundRow, mkRecord]]
          exact ih _ _ _

/-- The web modified-secant loop agrees with the CLI loop pass by pass
(unconditionally: both raise at the same program points). -/
theorem mod_secant_loop_agrees (f : Rat → Option Rat) (delta tol : Rat) :
    ∀ (fuel i : Nat) (x0 : Rat) (rows : List CliRow),
      modSecantLoop f delta tol fuel i x0 (rows.map roundRow)
        = webOfModSec (modSecantCliLoop f delta tol fuel i x0 rows) := by
  intro fuel
  induction fuel with
  | zero => intro i x0 rows; rfl
  | succ n ih =>
    intro i x0 rows
    rcases h0 : f x0 with _ | f0
    · rcases hd : f (x0 + delta * x0) with _ | f0d <;>
        simp [modSecantLoop, modSecantCliLoop, h0, hd, webOfModSec]
    · rcases hd : f (x0 + delta * x0) with _ | f0d
      · simp [modSecantLoop, modSecantCliLoop, h0, hd, webOfModSec]
      · by_cases hz : f0d - f0 = 0
        · simp [modSecantLoop, modSecantCliLoop, h0, hd, hz, webOfModSec]
        · rcases h1 : f (x0 - delta * x0 * f0 / (f0d - f0)) with _ | f1
          · simp [modSecantLoop, modSecantCliLoop, h0, hd, hz, h1, webOfModSec]
          · by_cases hc : pyAbs f1 < tol
                ∨ pyAbs (x0 - delta * x0 * f0 / (f0d - f0) - x0) < tol
            · simp only [modSecantLoop, modSecantCliLoop, h0, hd, hz, h1,
                if_false]
              rw [if_pos hc, if_pos hc]
              simp [webOfModSec, roundRow, mkRecord]
            · simp only [modSecantLoop, modSecantCliLoop, h0, hd, hz, h1, hc,
                if_false]
              rw [show (rows.map roundRow)
                    ++ [mkRecord i (x0 - delta * x0 * f0 / (f0d - f0)) f1
                         (pyAbs (x0 - delta * x0 * f0 / (f0d - f0) - x0))]
                    = (rows ++ [(⟨i, x0 - delta * x0 * f0 / (f0d - f0), f1,
                         pyAbs (x0 - delta * x0 * f0 / (f0d - f0) - x0)⟩ :
                           CliRow)]).map roundRow by
                  simp [roundRow, mkRecord]]
              exact ih _ _ _

/-- `solve_bisection` is the web image of `bisection` (CLI), for every
input: the two front ends run the same algorithm, the web trace storing
the 8-dp roundings of the CLI's raw row values. -/
theorem solve_bisection_agrees (f : Rat → Option Rat) (a b tol : Rat)
    (n : Nat) :
    solve_bisection f a b tol n = webOfBis (bisection_cli f a b tol n) := by
  rcases ha : f a with _ | va
  · simp [solve_bisection, bisection_cli, ha, webOfBis]
  · rcases hb : f b with _ | vb
    · simp [solve_bisection, bisection_cli, ha, hb, webOfBis]
    · by_cases hs : va * vb ≥ 0
      · simp only [solve_bisection, bisection_cli, ha, hb, if_pos hs]
        simp only [webOfBis]
        rw [if_neg (by decide)]
      · simp only [solve_bisection, bisection_cli, ha, hb, hs, if_false]
        exact bisection_loop_agrees f tol n 1 a b va []

/-- `solve_regula_falsi` is the web image of `regula_falsi` (CLI), for
every input (both raise on an unevaluable endpoint). -/
theorem solve_regula_agrees (f : Rat → Option Rat) (a b tol : Rat)
    (n : Nat) :
    solve_regula_falsi f a b tol n
      = webOfRegula (regula_falsi_cli f a b tol n) := by
  rcases ha : f a with _ | va
  · rcases hb : f b with _ | vb <;>
      simp [solve_regula_falsi, regula_falsi_cli, ha, hb, webOfRegula]
  · rcases hb : f b with _ | vb
    · simp [solve_regula_falsi, regula_falsi_cli, ha, hb, webOfRegula]
    · by_cases hs : va * vb ≥ 0
      · simp [solve_regula_falsi, regula_falsi_cli, ha, hb, hs, webOfRegula]
      · simp only [solve_regula_falsi, regula_falsi_cli, ha, hb, hs, if_false]
        exact regula_loop_agrees f tol n 1 a b va vb a []

/-- `solve_secant` is the web image of `secant` (CLI) whenever the
evaluator succeeds at every point. -/
theorem solve_secant_agrees (f : Rat → Option Rat)
    (htot : ∀ x, (f x).isSome) (x0 x1 tol : Rat) (n : Nat) :
    solve_secant f x0 x1 tol n = webOfSecant (secant_cli f x0 x1 tol n) :=
  secant_loop_agrees f htot tol n 1 x0 x1 []

/-- `solve_newton` is the web image of `newton_raphson` (CLI) whenever
both evaluators succeed at every point. -/
theorem solve_newton_agrees (f fp : Rat → Option Rat)
    (htf : ∀ x, (f x).isSome) (htp : ∀ x, (fp x).isSome)
    (x0 tol : Rat) (n : Nat) :
    solve_newton f fp x0 tol n
      = webOfNewton (newton_raphson_cli f fp x0 tol n) :=
  newton_loop_agrees f fp htf htp tol n 1 x0 []

/-- `solve_fixed_point` is the web image of `fixed_point` (CLI), for
every input. -/
theorem solve_fixed_point_agrees (g : Rat → Option Rat) (x0 tol : Rat)
    (n : Nat) :
    solve_fixed_point g x0 tol n = webOfFixed (fixed_point_cli g x0 tol n) :=
  fixed_point_loop_agrees g tol n 1 x0 []

/-- `solve_mod_secant` is the web image of `modified_secant` (CLI), for
every input. -/
theorem solve_mod_secant_agrees (f : Rat → Option Rat) (x0 delta tol : Rat)
    (n : Nat) :
    solve_mod_secant f x0 delta tol n
      = webOfModSec (modified_secant_cli f x0 delta tol n) :=
  mod_secant_loop_agrees f delta tol n 1 x0 []

/-! ### C4 -/

/-- C4 counterexample: the claim is false in two ways.  First, only the
web `safe_eval` normalises the caret: on the expression text "x^2" the
web front end submits "x**2" to `eval` while the CLI submits "x^2"
unchanged (where the caret is Python's XOR, unsupported on floats, so
the evaluation fails).  Second, on an input whose evaluation fails the
two secant front ends do not even produce the same outcome kind: the web
solver reports "Eval error" while the CLI solver raises `TypeError` at
`f1 - f0`. -/
theorem c4_counterexample :
    cliEvalText ("x^2") ≠ webEvalText ("x^2") ∧
    webEvalText ("x^2") = "x**2" ∧
    solve_secant (fun _ => none) 0 1 1 5 = .failure ("Eval error") ∧
    secant_cli (fun _ => none) 0 1 1 5 = ([], .raised ("TypeError")) := by
  refine ⟨by decide, by decide, ?_, ?_⟩
  · simp [solve_secant, secantLoop]
  · simp [secant_cli, secantCliLoop]

/-- C4 (amended): for every method, given expressions whose evaluation
succeeds at every queried point (a restriction the secant and Newton
conjuncts need: on evaluation failure the CLI raises where the web
engine reports), the CLI front end and the web front end compute the
same iteration sequence - the web records are exactly the 8-dp-rounded
images of the CLI's raw row values, themselves printed to 8 decimals -
and the same verdict, via the `webOf*` correspondence of terminal
outcomes.  Only the web form normalises the caret to `**` before
evaluation; the CLI submits the expression text unchanged. -/
theorem c4_front_ends_agree :
    (∀ (f : Rat → Option Rat) (a b tol : Rat) (n : Nat),
      solve_bisection f a b tol n = webOfBis (bisection_cli f a b tol n)) ∧
    (∀ (f : Rat → Option Rat) (a b tol : Rat) (n : Nat),
      solve_regula_falsi f a b tol n
        = webOfRegula (regula_falsi_cli f a b tol n)) ∧
    (∀ (f : Rat → Option Rat), (∀ x, (f x).isSome) →
      ∀ (x0 x1 tol : Rat) (n : Nat),
      solve_secant f x0 x1 tol n = webOfSecant (secant_cli f x0 x1 tol n)) ∧
    (∀ (f fp : Rat → Option Rat),
      (∀ x, (f x).isSome) → (∀ x, (fp x).isSome) →
      ∀ (x0 tol : Rat) (n : Nat),
      solve_newton f fp x0 tol n
        = webOfNewton (newton_raphson_cli f fp x0 tol n)) ∧
    (∀ (g : Rat → Option Rat) (x0 tol : Rat) (n : Nat),
      solve_fixed_point g x0 tol n
        = webOfFixed (fixed_point_cli g x0 tol n)) ∧
    (∀ (f : Rat → Option Rat) (x0 delta tol : Rat) (n : Nat),
      solve_mod_secant f x0 delta tol n
        = webOfModSec (modified_secant_cli f x0 delta tol n)) ∧
    webEvalText ("x^2") = "x**2" ∧ cliEvalText ("x^2") = "x^2" :=
  ⟨solve_bisection_agrees, solve_regula_agrees,
   fun f htot => solve_secant_agrees f htot,
   fun f fp htf htp => solve_newton_agrees f fp htf htp,
   solve_fixed_point_agrees, solve_mod_secant_agrees, by decide, rfl⟩

/-- Witness for C4 (amended) at concrete inputs: the secant and Newton
conjuncts applied to total evaluators. -/
theorem c4_witness :
    solve_secant (fun x => some (x * x - 2)) 1 2 (1/10) 3
      = webOfSecant (secant_cli (fun x => some (x * x - 2)) 1 2 (1/10) 3) ∧
    solve_newton (fun x => some (x * x - 2)) (fun x => some (2 * x)) 1 (1/10) 3
      = webOfNewton (newton_raphson_cli (fun x => some (x * x - 2))
          (fun x => some (2 * x)) 1 (1/10) 3) :=
  ⟨c4_front_ends_agree.2.2.1 (fun x => some (x * x - 2)) (fun _ => rfl)
      1 2 (1/10) 3,
   c4_front_ends_agree.2.2.2.1 (fun x => some (x * x - 2))
      (fun x => some (2 * x)) (fun _ => rfl) (fun _ => rfl) 1 (1/10) 3⟩

/-! ### C9 -/

/-- C9 counterexample: `f(x) = x - 1/3` on `[0, 1]`.  On the first pass
the engine computes `c = 1/2` and `f(c) = 1/6`, but the stored record
carries `func = 0.16666667`, the 8-dp rounding - not the unrounded
computed value `1/6` - refuting the claim that record fields equal the
unrounded values. -/
theorem c9_counterexample :
    solve_bisection (fun x => some (x - 1/3)) 0 1 (1/1000000000000) 1
      = .result [⟨1, 1/2, 16666667/100000000, 1⟩] none ∧
    (fun x => some (x - (1:Rat)/3)) (1/2) = some (1/6) ∧
    (16666667/100000000 : Rat) ≠ 1/6 := by
  refine ⟨?_, by norm_num, by norm_num⟩
  norm_num [solve_bisection, bisectionLoop, bisectionUpdate, mkRecord,
    pyRound8, roundHalfEven, pyAbs]

/-- C9 (amended): in every one of the six solvers, the engine's internal
arithmetic is full precision and rounding happens once, at record
creation (the `round(.., 8)` inside every `data.append`): whenever a
solver returns a trace result, its stored records are exactly the 8-dp
roundings (`roundRow`) of the raw iteration values - the values the CLI
engine, which performs the identical unrounded state updates, passes to
its printer.  The secant and Newton conjuncts assume a total evaluator,
which the front-end correspondence itself needs; the other four hold
for every input.  (What the claim gets wrong is only where the rounding
lives: in the engine at append time, not in the caller.) -/
theorem c9_records_rounded_at_append :
    (∀ (f : Rat → Option Rat) (a b tol : Rat) (n : Nat)
        (data : List IterationRecord) (root : Option Rat),
      solve_bisection f a b tol n = .result data root →
      data = ((bisection_cli f a b tol n).1).map roundRow) ∧
    (∀ (f : Rat → Option Rat) (a b tol : Rat) (n : Nat)
        (data : List IterationRecord) (root : Option Rat),
      solve_regula_falsi f a b tol n = .result data root →
      data = ((regula_falsi_cli f a b tol n).1).map roundRow) ∧
    (∀ (f : Rat → Option Rat), (∀ x, (f x).isSome) →
      ∀ (x0 x1 tol : Rat) (n : Nat) (data : List IterationRecord)
        (root : Option Rat),
      solve_secant f x0 x1 tol n = .result data root →
      data = ((secant_cli f x0 x1 tol n).1).map roundRow) ∧
    (∀ (f fp : Rat → Option Rat),
      (∀ x, (f x).isSome) → (∀ x, (fp x).isSome) →
      ∀ (x0 tol : Rat) (n : Nat) (data : List IterationRecord)
        (root : Option Rat),
      solve_newton f fp x0 tol n = .result data root →
      data = ((newton_raphson_cli f fp x0 tol n).1).map roundRow) ∧
    (∀ (g : Rat → Option Rat) (x0 tol : Rat) (n : Nat)
        (data : List IterationRecord) (root : Option Rat),
      solve_fixed_point g x0 tol n = .result data root →
      data = ((fixed_point_cli g x0 tol n).1).map roundRow) ∧
    (∀ (f : Rat → Option Rat) (x0 delta tol : Rat) (n : Nat)
        (data : List IterationRecord) (root : Option Rat),
      solve_mod_secant f x0 delta tol n = .result data root →
      data = ((modified_secant_cli f x0 delta tol n).1).map roundRow) := by
  refine ⟨?_, ?_, ?_, ?_, ?_, ?_⟩
  · intro f a b tol n data root h
    have hag := solve_bisection_agrees f a b tol n
    rcases hcl : bisection_cli f a b tol n with ⟨rows, oc⟩
    rw [hcl] at hag
    rw [hag] at h
    rcases oc with r | _ | m | e | _
    · simp only [webOfBis] at h
      injection h with h1 h2
      exact h1.symm
    · simp only [webOfBis] at h
      injection h with h1 h2
      exact h1.symm
    · simp only [webOfBis] at h
      split at h <;> exact WebResult.noConfusion h
    · simp only [webOfBis] at h
      exact WebResult.noConfusion h
    · simp only [webOfBis] at h
      exact WebResult.noConfusion h
  · intro f a b tol n data root h
    have hag := solve_regula_agrees f a b tol n
    rcases hcl : regula_falsi_cli f a b tol n with ⟨rows, oc⟩
    rw [hcl] at hag
    rw [hag] at h
    rcases oc with r | _ | m | e | _ <;> simp only [webOfRegula] at h
    · injection h with h1 h2
      exact h1.symm
    · injection h with h1 h2
      exact h1.symm
    · exact WebResult.noConfusion h
    · exact WebResult.noConfusion h
    · exact WebResult.noConfusion h
  · intro f htot x0 x1 tol n data root h
    have hag := solve_secant_agrees f htot x0 x1 tol n
    rcases hcl : secant_cli f x0 x1 tol n with ⟨rows, oc⟩
    rw [hcl] at hag
    rw [hag] at h
    rcases oc with r | _ | m | e | _ <;> simp only [webOfSecant] at h
    · injection h with h1 h2
      exact h1.symm
    · injection h with h1 h2
      exact h1.symm
    · exact WebResult.noConfusion h
    · exact WebResult.noConfusion h
    · exact WebResult.noConfusion h
  · intro f fp htf htp x0 tol n data root h
    have hag := solve_newton_agrees f fp htf htp x0 tol n
    rcases hcl : newton_raphson_cli f fp x0 tol n with ⟨rows, oc⟩
    rw [hcl] at hag
    rw [hag] at h
    rcases oc with r | _ | m | e | _ <;> simp only [webOfNewton] at h
    · injection h with h1 h2
      exact h1.symm
    · injection h with h1 h2
      exact h1.symm
    · exact WebResult.noConfusion h
    · exact WebResult.noConfusion h
    · exact WebResult.noConfusion h
  · intro g x0 tol n data root h
    have hag := solve_fixed_point_agrees g x0 tol n
    rcases hcl : fixed_point_cli g x0 tol n with ⟨rows, oc⟩
    rw [hcl] at hag
    rw [hag] at h
    rcases oc with r | _ | m | e | _ <;> simp only [webOfFixed] at h
    · injection h with h1 h2
      exact h1.symm
    · injection h with h1 h2
      exact h1.symm
    · exact WebResult.noConfusion h
    · exact WebResult.noConfusion h
    · exact WebResult.noConfusion h
  · intro f x0 delta tol n data root h
    have hag := solve_mod_secant_agrees f x0 delta tol n
    rcases hcl : modified_secant_cli f x0 delta tol n with ⟨rows, oc⟩
    rw [hcl] at hag
    rw [hag] at h
    rcases oc with r | _ | m | e | _ <;> simp only [webOfModSec] at h
    · injection h with h1 h2
      exact h1.symm
    · injection h with h1 h2
      exact h1.symm
    · exact WebResult.noConfusion h
    · exact WebResult.noConfusion h
    · exact WebResult.noConfusion h

/-- Witness for C9 (amended) at a concrete input: the bisection conjunct
applied to the run of the counterexample. -/
theorem c9_witness :
    ([(⟨1, 1/2, 16666667/100000000, 1⟩ : IterationRecord)]
        : List IterationRecord)
      = ((bisection_cli (fun x => some (x - 1/3)) 0 1
          (1/1000000000000) 1).1).map roundRow :=
  c9_records_rounded_at_append.1 (fun x => some (x - 1/3)) 0 1
    (1/1000000000000) 1 [⟨1, 1/2, 16666667/100000000, 1⟩] none
    (by norm_num [solve_bisection, bisectionLoop, bisectionUpdate, mkRecord,
      pyRound8, roundHalfEven, pyAbs])

/-! ### Length lemmas: a loop that returns a root appended a record

Each loop returns `.result data (some r)` only on its convergence
branch, whose `data` strictly extends the accumulated trace.  These
lemmas power the only-if direction of the convergence criterion. -/

/-- A bisection loop call returning a root has strictly extended `data`. -/
theorem bisectionLoop_longer_of_some (f : Rat → Option Rat) (tol : Rat) :
    ∀ (fuel i : Nat) (a b fa : Rat) (acc data : List IterationRecord)
      (r : Rat),
      bisectionLoop f tol fuel i a b fa acc = .result data (some r) →
      acc.length < data.length := by
  intro fuel
  induction fuel with
  | zero => intro i a b fa acc data r h; simp [bisectionLoop] at h
  | succ n ih =>
    intro i a b fa acc data r h
    rcases hfc : f ((a + b) / 2) with _ | fc
    · simp [bisectionLoop, hfc] at h
    · by_cases hc : pyAbs fc < tol ∨ pyAbs (b - a) < tol
      · have heq : bisectionLoop f tol (n+1) i a b fa acc
            = .result (acc ++ [mkRecord i ((a + b) / 2) fc (pyAbs (b - a))])
                (some ((a + b) / 2)) := by
          simp only [bisectionLoop, hfc]
          rw [if_pos hc]
        rw [heq] at h
        injection h with hdata hroot
        rw [← hdata]
        simp
      · simp only [bisectionLoop, hfc, hc, if_false] at h
        have := ih _ _ _ _ _ _ _ h
        rw [List.length_append] at this
        simp at this
        omega

/-- A regula-falsi loop call returning a root has strictly extended
`data`. -/
theorem regulaLoop_longer_of_some (f : Rat → Option Rat) (tol : Rat) :
    ∀ (fuel i : Nat) (a b fa fb pc : Rat) (acc data : List IterationRecord)
      (r : Rat),
      regulaLoop f tol fuel i a b fa fb pc acc = .result data (some r) →
      acc.length < data.length := by
  intro fuel
  induction fuel with
  | zero => intro i a b fa fb pc acc data r h; simp [regulaLoop] at h
  | succ n ih =>
    intro i a b fa fb pc acc data r h
    by_cases hd : fb - fa = 0
    · simp [regulaLoop, hd] at h
    · rcases hfc : f ((a * fb - b * fa) / (fb - fa)) with _ | fc
      · simp [regulaLoop, hd, hfc] at h
      · by_cases hc : pyAbs fc < tol
            ∨ pyAbs ((a * fb - b * fa) / (fb - fa) - pc) < tol
        · have heq : regulaLoop f tol (n+1) i a b fa fb pc acc
              = .result (acc ++ [mkRecord i ((a * fb - b * fa) / (fb - fa)) fc
                    (pyAbs ((a * fb - b * fa) / (fb - fa) - pc))])
                  (some ((a * fb - b * fa) / (fb - fa))) := by
            simp only [regulaLoop, hd, hfc, if_false]
            rw [if_pos hc]
          rw [heq] at h
          injection h with hdata hroot
          rw [← hdata]
          simp
        · simp only [regulaLoop, hd, hfc, hc, if_false] at h
          have := ih _ _ _ _ _ _ _ _ _ h
          rw [List.length_append] at this
          simp at this
          omega

/-- A secant loop call returning a root has strictly extended `data`. -/
theorem secantLoop_longer_of_some (f : Rat → Option Rat) (tol : Rat) :
    ∀ (fuel i : Nat) (x0 x1 : Rat) (acc data : List IterationRecord)
      (r : Rat),
      secantLoop f tol fuel i x0 x1 acc = .result data (some r) →
      acc.length < data.length := by
  intro fuel
  induction fuel with
  | zero => intro i x0 x1 acc data r h; simp [secantLoop] at h
  | succ n ih =>
    intro i x0 x1 acc data r h
    rcases h0 : f x0 with _ | f0
    · rcases h1 : f x1 with _ | f1 <;> simp [secantLoop, h0, h1] at h
    · rcases h1 : f x1 with _ | f1
      · simp [secantLoop, h0, h1] at h
      · by_cases hd : f1 - f0 = 0
        · simp [secantLoop, h0, h1, hd] at h
        · rcases h2 : f (x1 - (f1 * (x1 - x0)) / (f1 - f0)) with _ | f2
          · simp [secantLoop, h0, h1, hd, h2] at h
          · by_cases hc : pyAbs f2 < tol
                ∨ pyAbs (x1 - (f1 * (x1 - x0)) / (f1 - f0) - x1) < tol
            · have heq : secantLoop f tol (n+1) i x0 x1 acc
                  = .result (acc
                      ++ [mkRecord i (x1 - (f1 * (x1 - x0)) / (f1 - f0)) f2
                           (pyAbs (x1 - (f1 * (x1 - x0)) / (f1 - f0) - x1))])
                      (some (x1 - (f1 * (x1 - x0)) / (f1 - f0))) := by
                simp only [secantLoop, h0, h1, hd, h2, if_false]
                rw [if_pos hc]
              rw [heq] at h
              injection h with hdata hroot
              rw [← hdata]
              simp
            · simp only [secantLoop, h0, h1, hd, h2, hc, if_false] at h
              have := ih _ _ _ _ _ _ h
              rw [List.length_append] at this
              simp at this
              omega

/-- A Newton loop call returning a root has strictly extended `data`. -/
theorem newtonLoop_longer_of_some (f fp : Rat → Option Rat) (tol : Rat) :
    ∀ (fuel i : Nat) (x0 : Rat) (acc data : List IterationRecord) (r : Rat),
      newtonLoop f fp tol fuel i x0 acc = .result data (some r) →
      acc.length < data.length := by
  intro fuel
  induction fuel with
  | zero => intro i x0 acc data r h; simp [newtonLoop] at h
  | succ n ih =>
    intro i x0 acc data r h
    by_cases hz : fp x0 = some 0
    · simp [newtonLoop, hz] at h
    · rcases h0 : f x0 with _ | f0
      · rcases hp : fp x0 with _ | fp0
        · simp [newtonLoop, hz, h0, hp] at h
        · have hfp0 : ¬ fp0 = 0 := fun hh => hz (by rw [hp, hh])
          simp [newtonLoop, hz, h0, hp, hfp0] at h
      · rcases hp : fp x0 with _ | fp0
        · simp [newtonLoop, hz, h0, hp] at h
        · have hfp0 : ¬ fp0 = 0 := fun hh => hz (by rw [hp, hh])
          rcases h1 : f (x0 - f0 / fp0) with _ | f1
          · simp [newtonLoop, hz, h0, hp, hfp0, h1] at h
          · by_cases hc : pyAbs f1 < tol ∨ pyAbs (x0 - f0 / fp0 - x0) < tol
            · have heq : newtonLoop f fp tol (n+1) i x0 acc
                  = .result (acc ++ [mkRecord i (x0 - f0 / fp0) f1
                        (pyAbs (x0 - f0 / fp0 - x0))])
                      (some (x0 - f0 / fp0)) := by
                simp only [newtonLoop, h0, hp, hfp0, h1, if_false,
                  Option.some.injEq]
                rw [if_pos hc]
              rw [heq] at h
              injection h with hdata hroot
              rw [← hdata]
              simp
            · simp only [newtonLoop, h0, hp, hfp0, h1, hc, if_false,
                Option.some.injEq] at h
              have := ih _ _ _ _ _ h
              rw [List.length_append] at this
              simp at this
              omega

/-- A fixed-point loop call returning a root has strictly extended
`data`. -/
theorem fixedPointLoop_longer_of_some (g : Rat → Option Rat) (tol : Rat) :
    ∀ (fuel i : Nat) (x0 : Rat) (acc data : List IterationRecord) (r : Rat),
      fixedPointLoop g tol fuel i x0 acc = .result data (some r) →
      acc.length < data.length := by
  intro fuel
  induction fuel with
  | zero => intro i x0 acc data r h; simp [fixedPointLoop] at h
  | succ n ih =>
    intro i x0 acc data r h
    rcases hg : g x0 with _ | x1
    · simp [fixedPointLoop, hg] at h
    · by_cases hc : pyAbs (x1 - x0) < tol
      · have heq : fixedPointLoop g tol (n+1) i x0 acc
            = .result (acc ++ [mkRecord i x1 x1 (pyAbs (x1 - x0))])
                (some x1) := by
          simp only [fixedPointLoop, hg]
          rw [if_pos hc]
        rw [heq] at h
        injection h with hdata hroot
        rw [← hdata]
        simp
      · by_cases hbig : x1 > 10^10
        · simp [fixedPointLoop, hg, hc, hbig] at h
        · simp only [fixedPointLoop, hg, hc, hbig, if_false] at h
          have := ih _ _ _ _ _ h
          rw [List.length_append] at this
          simp at this
          omega

/-- A modified-secant loop call returning a root has strictly extended
`data`. -/
theorem modSecantLoop_longer_of_some (f : Rat → Option Rat)
    (delta tol : Rat) :
    ∀ (fuel i : Nat) (x0 : Rat) (acc data : List IterationRecord) (r : Rat),
      modSecantLoop f delta tol fuel i x0 acc = .result data (some r) →
      acc.length < data.length := by
  intro fuel
  induction fuel with
  | zero => intro i x0 acc data r h; simp [modSecantLoop] at h
  | succ n ih =>
    intro i x0 acc data r h
    rcases h0 : f x0 with _ | f0
    · rcases hd : f (x0 + delta * x0) with _ | f0d <;>
        simp [modSecantLoop, h0, hd] at h
    · rcases hd : f (x0 + delta * x0) with _ | f0d
      · simp [modSecantLoop, h0, hd] at h
      · by_cases hz : f0d - f0 = 0
        · simp [modSecantLoop, h0, hd, hz] at h
        · rcases h1 : f (x0 - delta * x0 * f0 / (f0d - f0)) with _ | f1
          · simp [modSecantLoop, h0, hd, hz, h1] at h
          · by_cases hc : pyAbs f1 < tol
                ∨ pyAbs (x0 - delta * x0 * f0 / (f0d - f0) - x0) < tol
            · have heq : modSecantLoop f delta tol (n+1) i x0 acc
                  = .result (acc
                      ++ [mkRecord i (x0 - delta * x0 * f0 / (f0d - f0)) f1
                           (pyAbs (x0 - delta * x0 * f0 / (f0d - f0) - x0))])
                      (some (x0 - delta * x0 * f0 / (f0d - f0))) := by
                simp only [modSecantLoop, h0, hd, hz, h1, if_false]
                rw [if_pos hc]
              rw [heq] at h
              injection h with hdata hroot
              rw [← hdata]
              simp
            · simp only [modSecantLoop, h0, hd, hz, h1, hc, if_false] at h
              have := ih _ _ _ _ _ h
              rw [List.length_append] at this
              simp at this
              omega

/-! ### C6 -/

/-- C6: at every pass whose evaluations succeed (and whose
method-specific guards pass, where the method has them), the loop stops
with `converged = true` and the current estimate as root - that is,
returns the trace extended by this pass's record together with
`some estimate` - exactly when `|f(estimate)| < tol` or the error metric
is `< tol` at that pass; the fixed-point loop stops exactly when
`|x1 - x0| < tol`, with no residual criterion.  One iff per solver. -/
theorem c6_convergence_criterion :
    (∀ (f : Rat → Option Rat) (tol : Rat) (fuel i : Nat) (a b fa : Rat)
        (acc : List IterationRecord) (fc : Rat),
      f ((a + b) / 2) = some fc →
      (bisectionLoop f tol (fuel+1) i a b fa acc
          = .result (acc ++ [mkRecord i ((a + b) / 2) fc (pyAbs (b - a))])
              (some ((a + b) / 2))
        ↔ pyAbs fc < tol ∨ pyAbs (b - a) < tol)) ∧
    (∀ (f : Rat → Option Rat) (tol : Rat) (fuel i : Nat)
        (a b fa fb pc : Rat) (acc : List IterationRecord) (fc : Rat),
      fb - fa ≠ 0 →
      f ((a * fb - b * fa) / (fb - fa)) = some fc →
      (regulaLoop f tol (fuel+1) i a b fa fb pc acc
          = .result (acc ++ [mkRecord i ((a * fb - b * fa) / (fb - fa)) fc
                (pyAbs ((a * fb - b * fa) / (fb - fa) - pc))])
              (some ((a * fb - b * fa) / (fb - fa)))
        ↔ pyAbs fc < tol
            ∨ pyAbs ((a * fb - b * fa) / (fb - fa) - pc) < tol)) ∧
    (∀ (f : Rat → Option Rat) (tol : Rat) (fuel i : Nat) (x0 x1 : Rat)
        (acc : List IterationRecord) (f0 f1 f2 : Rat),
      f x0 = some f0 → f x1 = some f1 → f1 - f0 ≠ 0 →
      f (x1 - (f1 * (x1 - x0)) / (f1 - f0)) = some f2 →
      (secantLoop f tol (fuel+1) i x0 x1 acc
          = .result (acc ++ [mkRecord i (x1 - (f1 * (x1 - x0)) / (f1 - f0)) f2
                (pyAbs (x1 - (f1 * (x1 - x0)) / (f1 - f0) - x1))])
              (some (x1 - (f1 * (x1 - x0)) / (f1 - f0)))
        ↔ pyAbs f2 < tol
            ∨ pyAbs (x1 - (f1 * (x1 - x0)) / (f1 - f0) - x1) < tol)) ∧
    (∀ (f fp : Rat → Option Rat) (tol : Rat) (fuel i : Nat) (x0 : Rat)
        (acc : List IterationRecord) (f0 fp0 f1 : Rat),
      f x0 = some f0 → fp x0 = some fp0 → fp0 ≠ 0 →
      f (x0 - f0 / fp0) = some f1 →
      (newtonLoop f fp tol (fuel+1) i x0 acc
          = .result (acc ++ [mkRecord i (x0 - f0 / fp0) f1
                (pyAbs (x0 - f0 / fp0 - x0))])
              (some (x0 - f0 / fp0))
        ↔ pyAbs f1 < tol ∨ pyAbs (x0 - f0 / fp0 - x0) < tol)) ∧
    (∀ (g : Rat → Option Rat) (tol : Rat) (fuel i : Nat) (x0 : Rat)
        (acc : List IterationRecord) (x1 : Rat),
      g x0 = some x1 →
      (fixedPointLoop g tol (fuel+1) i x0 acc
          = .result (acc ++ [mkRecord i x1 x1 (pyAbs (x1 - x0))]) (some x1)
        ↔ pyAbs (x1 - x0) < tol)) ∧
    (∀ (f : Rat → Option Rat) (delta tol : Rat) (fuel i : Nat) (x0 : Rat)
        (acc : List IterationRecord) (f0 f0d f1 : Rat),
      f x0 = some f0 → f (x0 + delta * x0) = some f0d → f0d - f0 ≠ 0 →
      f (x0 - delta * x0 * f0 / (f0d - f0)) = some f1 →
      (modSecantLoop f delta tol (fuel+1) i x0 acc
          = .result (acc ++ [mkRecord i (x0 - delta * x0 * f0 / (f0d - f0)) f1
                (pyAbs (x0 - delta * x0 * f0 / (f0d - f0) - x0))])
              (some (x0 - delta * x0 * f0 / (f0d - f0)))
        ↔ pyAbs f1 < tol
            ∨ pyAbs (x0 - delta * x0 * f0 / (f0d - f0) - x0) < tol)) := by
  refine ⟨?_, ?_, ?_, ?_, ?_, ?_⟩
  · intro f tol fuel i a b fa acc fc hfc
    constructor
    · intro h
      by_contra hc
      simp only [bisectionLoop, hfc, hc, if_false] at h
      exact absurd (bisectionLoop_longer_of_some f tol fuel (i+1) _ _ _ _ _ _ h)
        (lt_irrefl _)
    · intro hc
      simp only [bisectionLoop, hfc]
      rw [if_pos hc]
  · intro f tol fuel i a b fa fb pc acc fc hd hfc
    constructor
    · intro h
      by_contra hc
      simp only [regulaLoop, hd, hfc, hc, if_false] at h
      exact absurd
        (regulaLoop_longer_of_some f tol fuel (i+1) _ _ _ _ _ _ _ _ h)
        (lt_irrefl _)
    · intro hc
      simp only [regulaLoop, hd, hfc, if_false]
      rw [if_pos hc]
  · intro f tol fuel i x0 x1 acc f0 f1 f2 h0 h1 hd h2
    constructor
    · intro h
      by_contra hc
      simp only [secantLoop, h0, h1, hd, h2, hc, if_false] at h
      exact absurd (secantLoop_longer_of_some f tol fuel (i+1) _ _ _ _ _ h)
        (lt_irrefl _)
    · intro hc
      simp only [secantLoop, h0, h1, hd, h2, if_false]
      rw [if_pos hc]
  · intro f fp tol fuel i x0 acc f0 fp0 f1 h0 hp hfp0 h1
    constructor
    · intro h
      by_contra hc
      simp only [newtonLoop, h0, hp, hfp0, h1, hc, if_false,
        Option.some.injEq] at h
      exact absurd (newtonLoop_longer_of_some f fp tol fuel (i+1) _ _ _ _ h)
        (lt_irrefl _)
    · intro hc
      simp only [newtonLoop, h0, hp, hfp0, h1, if_false, Option.some.injEq]
      rw [if_pos hc]
  · intro g tol fuel i x0 acc x1 hg
    constructor
    · intro h
      by_contra hc
      by_cases hbig : x1 > 10^10
      · simp [fixedPointLoop, hg, hc, hbig] at h
      · simp only [fixedPointLoop, hg, hc, hbig, if_false] at h
        exact absurd (fixedPointLoop_longer_of_some g tol fuel (i+1) _ _ _ _ h)
          (lt_irrefl _)
    · intro hc
      simp only [fixedPointLoop, hg]
      rw [if_pos hc]
  · intro f delta tol fuel i x0 acc f0 f0d f1 h0 hd hz h1
    constructor
    · intro h
      by_contra hc
      simp only [modSecantLoop, h0, hd, hz, h1, hc, if_false] at h
      exact absurd
        (modSecantLoop_longer_of_some f delta tol fuel (i+1) _ _ _ _ h)
        (lt_irrefl _)
    · intro hc
      simp only [modSecantLoop, h0, hd, hz, h1, if_false]
      rw [if_pos hc]

/-- Witness for C6 at a concrete input: the fixed-point conjunct applied
to the constant map g = 0 from x0 = 0, which converges on pass 1. -/
theorem c6_witness :
    fixedPointLoop (fun _ => some 0) 1 1 1 0 []
      = .result [mkRecord 1 0 0 (pyAbs (0 - 0))] (some 0) :=
  (c6_convergence_criterion.2.2.2.2.1 (fun _ => some 0) 1 0 1 0 [] 0
    rfl).mpr (by norm_num [pyAbs])

/-! ### C7 -/

/-- Python's `abs` never returns a negative value. -/
theorem pyAbs_nonneg (q : Rat) : 0 ≤ pyAbs q := by
  rcases lt_or_ge q 0 with h | h
  · simp only [pyAbs]
    rw [if_pos h]
    linarith
  · simp only [pyAbs]
    rw [if_neg (not_lt.mpr h)]
    exact h

/-- With a total evaluator and a nonpositive tolerance (an input the
engine accepts unchecked), a web bisection loop runs every remaining
pass and ends in the exhaustion result, appending one record per pass. -/
theorem bisectionLoop_exhausts (f : Rat → Option Rat) (tol : Rat)
    (htot : ∀ x, (f x).isSome) (htol : tol ≤ 0) :
    ∀ (fuel i : Nat) (a b fa : Rat) (acc : List IterationRecord),
      ∃ tail, bisectionLoop f tol fuel i a b fa acc
          = .result (acc ++ tail) none ∧ tail.length = fuel := by
  intro fuel
  induction fuel with
  | zero => intro i a b fa acc; exact ⟨[], by simp [bisectionLoop], rfl⟩
  | succ n ih =>
    intro i a b fa acc
    obtain ⟨fc, hfc⟩ := Option.isSome_iff_exists.mp (htot ((a + b) / 2))
    have hc : ¬ (pyAbs fc < tol ∨ pyAbs (b - a) < tol) := by
      push_neg
      exact ⟨le_trans htol (pyAbs_nonneg fc), le_trans htol (pyAbs_nonneg _)⟩
    obtain ⟨tail, htail, hlen⟩ :=
      ih (i+1) (bisectionUpdate a b fa ((a + b) / 2) fc).1
        (bisectionUpdate a b fa ((a + b) / 2) fc).2.1
        (bisectionUpdate a b fa ((a + b) / 2) fc).2.2
        (acc ++ [mkRecord i ((a + b) / 2) fc (pyAbs (b - a))])
    refine ⟨mkRecord i ((a + b) / 2) fc (pyAbs (b - a)) :: tail, ?_, by
      simp [hlen]⟩
    simp only [bisectionLoop, hfc, hc, if_false]
    rw [htail]
    simp

/-- The CLI counterpart: with a total evaluator and nonpositive
tolerance, a CLI bisection loop prints one row per remaining pass and
ends with "Max iterations reached.". -/
theorem bisectionCliLoop_exhausts (f : Rat → Option Rat) (tol : Rat)
    (htot : ∀ x, (f x).isSome) (htol : tol ≤ 0) :
    ∀ (fuel i : Nat) (a b fa : Rat) (rows : List CliRow),
      ∃ tail, bisectionCliLoop f tol fuel i a b fa rows
          = (rows ++ tail, .maxIter) ∧ tail.length = fuel := by
  intro fuel
  induction fuel with
  | zero => intro i a b fa rows; exact ⟨[], by simp [bisectionCliLoop], rfl⟩
  | succ n ih =>
    intro i a b fa rows
    obtain ⟨fc, hfc⟩ := Option.isSome_iff_exists.mp (htot ((a + b) / 2))
    have hc : ¬ (pyAbs fc < tol ∨ pyAbs (b - a) < tol) := by
      push_neg
      exact ⟨le_trans htol (pyAbs_nonneg fc), le_trans htol (pyAbs_nonneg _)⟩
    obtain ⟨tail, htail, hlen⟩ :=
      ih (i+1) (bisectionUpdate a b fa ((a + b) / 2) fc).1
        (bisectionUpdate a b fa ((a + b) / 2) fc).2.1
        (bisectionUpdate a b fa ((a + b) / 2) fc).2.2
        (rows ++ [(⟨i, (a + b) / 2, fc, pyAbs (b - a)⟩ : CliRow)])
    refine ⟨(⟨i, (a + b) / 2, fc, pyAbs (b - a)⟩ : CliRow) :: tail, ?_, by
      simp [hlen]⟩
    simp only [bisectionCliLoop, hfc, hc, if_false]
    rw [htail]
    simp

/-- C7 counterexample: a bisection run that exhausts its two allowed
passes (two records, `converged = false`, no root) carries NO
"maximum iterations reached" description - the web exhaustion result has
no `error` entry at all, refuting the claim that the returned result
includes such a description.  (The CLI front end does print
"Max iterations reached."; the web engine result identifies exhaustion
only by the absence of both root and error.) -/
theorem c7_counterexample :
    solve_bisection (fun x => some (x * x - 4)) 0 5 0 2
      = .result [⟨1, 5/2, 9/4, 5⟩, ⟨2, 5/4, -39/16, 5/2⟩] none ∧
    (solve_bisection (fun x => some (x * x - 4)) 0 5 0 2).errMsg = none ∧
    (solve_bisection (fun x => some (x * x - 4)) 0 5 0 2).convergedFlag
      = false := by
  have h : solve_bisection (fun x => some (x * x - 4)) 0 5 0 2
      = .result [⟨1, 5/2, 9/4, 5⟩, ⟨2, 5/4, -39/16, 5/2⟩] none := by
    norm_num [solve_bisection, bisectionLoop, bisectionUpdate, mkRecord,
      pyRound8, roundHalfEven, pyAbs]
  exact ⟨h, by rw [h]; rfl, by rw [h]; rfl⟩

/-! Exhaustion characterisation lemmas: every loop returns
`.result _ none` (web) or `.maxIter` (CLI) only by running out of fuel,
having appended exactly one record (printed one row) per executed pass.
They let the C7 theorem condition on the exhaustion outcome itself. -/

/-- A web bisection loop returning the rootless result ran every
remaining pass, one record per pass. -/
theorem bisectionLoop_none_length (f : Rat → Option Rat) (tol : Rat) :
    ∀ (fuel i : Nat) (a b fa : Rat) (acc data : List IterationRecord),
      bisectionLoop f tol fuel i a b fa acc = .result data none →
      data.length = acc.length + fuel := by
  intro fuel
  induction fuel with
  | zero =>
    intro i a b fa acc data h
    simp only [bisectionLoop] at h
    injection h with h1 h2
    rw [← h1]
    simp
  | succ n ih =>
    intro i a b fa acc data h
    rcases hfc : f ((a + b) / 2) with _ | fc
    · simp [bisectionLoop, hfc] at h
    · by_cases hc : pyAbs fc < tol ∨ pyAbs (b - a) < tol
      · have heq : bisectionLoop f tol (n+1) i a b fa acc
            = .result (acc ++ [mkRecord i ((a + b) / 2) fc (pyAbs (b - a))])
                (some ((a + b) / 2)) := by
          simp only [bisectionLoop, hfc]
          rw [if_pos hc]
        rw [heq] at h
        injection h with h1 h2
        exact Option.noConfusion h2
      · simp only [bisectionLoop, hfc, hc, if_false] at h
        have := ih _ _ _ _ _ _ h
        rw [List.length_append] at this
        simp at this
        omega

/-- A web regula-falsi loop returning the rootless result ran every
remaining pass. -/
theorem regulaLoop_none_length (f : Rat → Option Rat) (tol : Rat) :
    ∀ (fuel i : Nat) (a b fa fb pc : Rat) (acc data : List IterationRecord),
      regulaLoop f tol fuel i a b fa fb pc acc = .result data none →
      data.length = acc.length + fuel := by
  intro fuel
  induction fuel with
  | zero =>
    intro i a b fa fb pc acc data h
    simp only [regulaLoop] at h
    injection h with h1 h2
    rw [← h1]
    simp
  | succ n ih =>
    intro i a b fa fb pc acc data h
    by_cases hd : fb - fa = 0
    · simp [regulaLoop, hd] at h
    · rcases hfc : f ((a * fb - b * fa) / (fb - fa)) with _ | fc
      · simp [regulaLoop, hd, hfc] at h
      · by_cases hc : pyAbs fc < tol
            ∨ pyAbs ((a * fb - b * fa) / (fb - fa) - pc) < tol
        · have heq : regulaLoop f tol (n+1) i a b fa fb pc acc
              = .result (acc ++ [mkRecord i ((a * fb - b * fa) / (fb - fa)) fc
                    (pyAbs ((a * fb - b * fa) / (fb - fa) - pc))])
                  (some ((a * fb - b * fa) / (fb - fa))) := by
            simp only [regulaLoop, hd, hfc, if_false]
            rw [if_pos hc]
          rw [heq] at h
          injection h with h1 h2
          exact Option.noConfusion h2
        · simp only [regulaLoop, hd, hfc, hc, if_false] at h
          have := ih _ _ _ _ _ _ _ _ h
          rw [List.length_append] at this
          simp at this
          omega

/-- A web secant loop returning the rootless result ran every remaining
pass. -/
theorem secantLoop_none_length (f : Rat → Option Rat) (tol : Rat) :
    ∀ (fuel i : Nat) (x0 x1 : Rat) (acc data : List IterationRecord),
      secantLoop f tol fuel i x0 x1 acc = .result data none →
      data.length = acc.length + fuel := by
  intro fuel
  induction fuel with
  | zero =>
    intro i x0 x1 acc data h
    simp only [secantLoop] at h
    injection h with h1 h2
    rw [← h1]
    simp
  | succ n ih =>
    intro i x0 x1 acc data h
    rcases h0 : f x0 with _ | f0
    · rcases h1 : f x1 with _ | f1 <;> simp [secantLoop, h0, h1] at h
    · rcases h1 : f x1 with _ | f1
      · simp [secantLoop, h0, h1] at h
      · by_cases hd : f1 - f0 = 0
        · simp [secantLoop, h0, h1, hd] at h
        · rcases h2 : f (x1 - (f1 * (x1 - x0)) / (f1 - f0)) with _ | f2
          · simp [secantLoop, h0, h1, hd, h2] at h
          · by_cases hc : pyAbs f2 < tol
                ∨ pyAbs (x1 - (f1 * (x1 - x0)) / (f1 - f0) - x1) < tol
            · have heq : secantLoop f tol (n+1) i x0 x1 acc
                  = .result (acc
                      ++ [mkRecord i (x1 - (f1 * (x1 - x0)) / (f1 - f0)) f2
                           (pyAbs (x1 - (f1 * (x1 - x0)) / (f1 - f0) - x1))])
                      (some (x1 - (f1 * (x1 - x0)) / (f1 - f0))) := by
                simp only [secantLoop, h0, h1, hd, h2, if_false]
                rw [if_pos hc]
              rw [heq] at h
              injection h with h1 h2
              exact Option.noConfusion h2
            · simp only [secantLoop, h0, h1, hd, h2, hc, if_false] at h
              have := ih _ _ _ _ _ h
              rw [List.length_append] at this
              simp at this
              omega

/-- A web Newton loop returning the rootless result ran every remaining
pass. -/
theorem newtonLoop_none_length (f fp : Rat → Option Rat) (tol : Rat) :
    ∀ (fuel i : Nat) (x0 : Rat) (acc data : List IterationRecord),
      newtonLoop f fp tol fuel i x0 acc = .result data none →
      data.length = acc.length + fuel := by
  intro fuel
  induction fuel with
  | zero =>
    intro i x0 acc data h
    simp only [newtonLoop] at h
    injection h with h1 h2
    rw [← h1]
    simp
  | succ n ih =>
    intro i x0 acc data h
    by_cases hz : fp x0 = some 0
    · simp [newtonLoop, hz] at h
    · rcases h0 : f x0 with _ | f0
      · rcases hp : fp x0 with _ | fp0
        · simp [newtonLoop, hz, h0, hp] at h
        · have hfp0 : ¬ fp0 = 0 := fun hh => hz (by rw [hp, hh])
          simp [newtonLoop, hz, h0, hp, hfp0] at h
      · rcases hp : fp x0 with _ | fp0
        · simp [newtonLoop, hz, h0, hp] at h
        · have hfp0 : ¬ fp0 = 0 := fun hh => hz (by rw [hp, hh])
          rcases h1 : f (x0 - f0 / fp0) with _ | f1
          · simp [newtonLoop, hz, h0, hp, hfp0, h1] at h
          · by_cases hc : pyAbs f1 < tol ∨ pyAbs (x0 - f0 / fp0 - x0) < tol
            · have heq : newtonLoop f fp tol (n+1) i x0 acc
                  = .result (acc ++ [mkRecord i (x0 - f0 / fp0) f1
                        (pyAbs (x0 - f0 / fp0 - x0))])
                      (some (x0 - f0 / fp0)) := by
                simp only [newtonLoop, h0, hp, hfp0, h1, if_false,
                  Option.some.injEq]
                rw [if_pos hc]
              rw [heq] at h
              injection h with h1 h2
              exact Option.noConfusion h2
            · simp only [newtonLoop, h0, hp, hfp0, h1, hc, if_false,
                Option.some.injEq] at h
              have := ih _ _ _ _ h
              rw [List.length_append] at this
              simp at this
              omega

/-- A web fixed-point loop returning the rootless result ran every
remaining pass. -/
theorem fixedPointLoop_none_length (g : Rat → Option Rat) (tol : Rat) :
    ∀ (fuel i : Nat) (x0 : Rat) (acc data : List IterationRecord),
      fixedPointLoop g tol fuel i x0 acc = .result data none →
      data.length = acc.length + fuel := by
  intro fuel
  induction fuel with
  | zero =>
    intro i x0 acc data h
    simp only [fixedPointLoop] at h
    injection h with h1 h2
    rw [← h1]
    simp
  | succ n ih =>
    intro i x0 acc data h
    rcases hg : g x0 with _ | x1
    · simp [fixedPointLoop, hg] at h
    · by_cases hc : pyAbs (x1 - x0) < tol
      · have heq : fixedPointLoop g tol (n+1) i x0 acc
            = .result (acc ++ [mkRecord i x1 x1 (pyAbs (x1 - x0))])
                (some x1) := by
          simp only [fixedPointLoop, hg]
          rw [if_pos hc]
        rw [heq] at h
        injection h with h1 h2
        exact Option.noConfusion h2
      · by_cases hbig : x1 > 10^10
        · simp [fixedPointLoop, hg, hc, hbig] at h
        · simp only [fixedPointLoop, hg, hc, hbig, if_false] at h
          have := ih _ _ _ _ h
          rw [List.length_append] at this
          simp at this
          omega

/-- A web modified-secant loop returning the rootless result ran every
remaining pass. -/
theorem modSecantLoop_none_length (f : Rat → Option Rat)
    (delta tol : Rat) :
    ∀ (fuel i : Nat) (x0 : Rat) (acc data : List IterationRecord),
      modSecantLoop f delta tol fuel i x0 acc = .result data none →
      data.length = acc.length + fuel := by
  intro fuel
  induction fuel with
  | zero =>
    intro i x0 acc data h
    simp only [modSecantLoop] at h
    injection h with h1 h2
    rw [← h1]
    simp
  | succ n ih =>
    intro i x0 acc data h
    rcases h0 : f x0 with _ | f0
    · rcases hd : f (x0 + delta * x0) with _ | f0d <;>
        simp [modSecantLoop, h0, hd] at h
    · rcases hd : f (x0 + delta * x0) with _ | f0d
      · simp [modSecantLoop, h0, hd] at h
      · by_cases hz : f0d - f0 = 0
        · simp [modSecantLoop, h0, hd, hz] at h
        · rcases h1 : f (x0 - delta * x0 * f0 / (f0d - f0)) with _ | f1
          · simp [modSecantLoop, h0, hd, hz, h1] at h
          · by_cases hc : pyAbs f1 < tol
                ∨ pyAbs (x0 - delta * x0 * f0 / (f0d - f0) - x0) < tol
            · have heq : modSecantLoop f delta tol (n+1) i x0 acc
                  = .result (acc
                      ++ [mkRecord i (x0 - delta * x0 * f0 / (f0d - f0)) f1
                           (pyAbs (x0 - delta * x0 * f0 / (f0d - f0) - x0))])
                      (some (x0 - delta * x0 * f0 / (f0d - f0))) := by
                simp only [modSecantLoop, h0, hd, hz, h1, if_false]
                rw [if_pos hc]
              rw [heq] at h
              injection h with h1 h2
              exact Option.noConfusion h2
            · simp only [modSecantLoop, h0, hd, hz, h1, hc, if_false] at h
              have := ih _ _ _ _ h
              rw [List.length_append] at this
              simp at this
              omega

/-- A CLI bisection loop ending in "Max iterations reached." printed one
row per remaining pass. -/
theorem bisectionCliLoop_maxIter_length (f : Rat → Option Rat) (tol : Rat) :
    ∀ (fuel i : Nat) (a b fa : Rat) (rows rows2 : List CliRow),
      bisectionCliLoop f tol fuel i a b fa rows = (rows2, .maxIter) →
      rows2.length = rows.length + fuel := by
  intro fuel
  induction fuel with
  | zero =>
    intro i a b fa rows rows2 h
    simp only [bisectionCliLoop] at h
    injection h with h1 h2
    rw [← h1]
    simp
  | succ n ih =>
    intro i a b fa rows rows2 h
    rcases hfc : f ((a + b) / 2) with _ | fc
    · simp [bisectionCliLoop, hfc] at h
    · by_cases hc : pyAbs fc < tol ∨ pyAbs (b - a) < tol
      · have heq : bisectionCliLoop f tol (n+1) i a b fa rows
            = (rows ++ [(⟨i, (a + b) / 2, fc, pyAbs (b - a)⟩ : CliRow)],
                .converged ((a + b) / 2)) := by
          simp only [bisectionCliLoop, hfc]
          rw [if_pos hc]
        rw [heq] at h
        injection h with h1 h2
        exact CliOutcome.noConfusion h2
      · simp only [bisectionCliLoop, hfc, hc, if_false] at h
        have := ih _ _ _ _ _ _ h
        rw [List.length_append] at this
        simp at this
        omega

/-- A CLI regula-falsi loop ending in "Max iterations reached." printed
one row per remaining pass. -/
theorem regulaCliLoop_maxIter_length (f : Rat → Option Rat) (tol : Rat) :
    ∀ (fuel i : Nat) (a b fa fb pc : Rat) (rows rows2 : List CliRow),
      regulaCliLoop f tol fuel i a b fa fb pc rows = (rows2, .maxIter) →
      rows2.length = rows.length + fuel := by
  intro fuel
  induction fuel with
  | zero =>
    intro i a b fa fb pc rows rows2 h
    simp only [regulaCliLoop] at h
    injection h with h1 h2
    rw [← h1]
    simp
  | succ n ih =>
    intro i a b fa fb pc rows rows2 h
    by_cases hd : fb - fa = 0
    · simp [regulaCliLoop, hd] at h
    · rcases hfc : f ((a * fb - b * fa) / (fb - fa)) with _ | fc
      · simp [regulaCliLoop, hd, hfc] at h
      · by_cases hc : pyAbs fc < tol
            ∨ pyAbs ((a * fb - b * fa) / (fb - fa) - pc) < tol
        · have heq : regulaCliLoop f tol (n+1) i a b fa fb pc rows
              = (rows ++ [(⟨i, (a * fb - b * fa) / (fb - fa), fc,
                    pyAbs ((a * fb - b * fa) / (fb - fa) - pc)⟩ : CliRow)],
                  .converged ((a * fb - b * fa) / (fb - fa))) := by
            simp only [regulaCliLoop, hd, hfc, if_false]
            rw [if_pos hc]
          rw [heq] at h
          injection h with h1 h2
          exact CliOutcome.noConfusion h2
        · simp only [regulaCliLoop, hd, hfc, hc, if_false] at h
          have := ih _ _ _ _ _ _ _ _ h
          rw [List.length_append] at this
          simp at this
          omega

/-- A CLI secant loop ending in "Max iterations reached." printed one
row per remaining pass. -/
theorem secantCliLoop_maxIter_length (f : Rat → Option Rat) (tol : Rat) :
    ∀ (fuel i : Nat) (x0 x1 : Rat) (rows rows2 : List CliRow),
      secantCliLoop f tol fuel i x0 x1 rows = (rows2, .maxIter) →
      rows2.length = rows.length + fuel := by
  intro fuel
  induction fuel with
  | zero =>
    intro i x0 x1 rows rows2 h
    simp only [secantCliLoop] at h
    injection h with h1 h2
    rw [← h1]
    simp
  | succ n ih =>
    intro i x0 x1 rows rows2 h
    rcases h0 : f x0 with _ | f0
    · rcases h1 : f x1 with _ | f1 <;> simp [secantCliLoop, h0, h1] at h
    · rcases h1 : f x1 with _ | f1
      · simp [secantCliLoop, h0, h1] at h
      · by_cases hd : f1 - f0 = 0
        · simp [secantCliLoop, h0, h1, hd] at h
        · rcases h2 : f (x1 - (f1 * (x1 - x0)) / (f1 - f0)) with _ | f2
          · simp [secantCliLoop, h0, h1, hd, h2] at h
          · by_cases hc : pyAbs f2 < tol
                ∨ pyAbs (x1 - (f1 * (x1 - x0)) / (f1 - f0) - x1) < tol
            · have heq : secantCliLoop f tol (n+1) i x0 x1 rows
                  = (rows ++ [(⟨i, x1 - (f1 * (x1 - x0)) / (f1 - f0), f2,
                        pyAbs (x1 - (f1 * (x1 - x0)) / (f1 - f0) - x1)⟩ :
                          CliRow)],
                      .converged (x1 - (f1 * (x1 - x0)) / (f1 - f0))) := by
                simp only [secantCliLoop, h0, h1, hd, h2, if_false]
                rw [if_pos hc]
              rw [heq] at h
              injection h with h1 h2
              exact CliOutcome.noConfusion h2
            · simp only [secantCliLoop, h0, h1, hd, h2, hc, if_false] at h
              have := ih _ _ _ _ _ h
              rw [List.length_append] at this
              simp at this
              omega

/-- A CLI Newton loop ending in "Max iterations reached." printed one
row per remaining pass. -/
theorem newtonCliLoop_maxIter_length (f fp : Rat → Option Rat) (tol : Rat) :
    ∀ (fuel i : Nat) (x0 : Rat) (rows rows2 : List CliRow),
      newtonCliLoop f fp tol fuel i x0 rows = (rows2, .maxIter) →
      rows2.length = rows.length + fuel := by
  intro fuel
  induction fuel with
  | zero =>
    intro i x0 rows rows2 h
    simp only [newtonCliLoop] at h
    injection h with h1 h2
    rw [← h1]
    simp
  | succ n ih =>
    intro i x0 rows rows2 h
    by_cases hz : fp x0 = some 0
    · simp [newtonCliLoop, hz] at h
    · rcases h0 : f x0 with _ | f0
      · rcases hp : fp x0 with _ | fp0
        · simp [newtonCliLoop, hz, h0, hp] at h
        · have hfp0 : ¬ fp0 = 0 := fun hh => hz (by rw [hp, hh])
          simp [newtonCliLoop, hz, h0, hp, hfp0] at h
      · rcases hp : fp x0 with _ | fp0
        · simp [newtonCliLoop, hz, h0, hp] at h
        · have hfp0 : ¬ fp0 = 0 := fun hh => hz (by rw [hp, hh])
          rcases h1 : f (x0 - f0 / fp0) with _ | f1
          · simp [newtonCliLoop, hz, h0, hp, hfp0, h1] at h
          · by_cases hc : pyAbs f1 < tol ∨ pyAbs (x0 - f0 / fp0 - x0) < tol
            · have heq : newtonCliLoop f fp tol (n+1) i x0 rows
                  = (rows ++ [(⟨i, x0 - f0 / fp0, f1,
                        pyAbs (x0 - f0 / fp0 - x0)⟩ : CliRow)],
                      .converged (x0 - f0 / fp0)) := by
                simp only [newtonCliLoop, h0, hp, hfp0, h1, if_false,
                  Option.some.injEq]
                rw [if_pos hc]
              rw [heq] at h
              injection h with h1 h2
              exact CliOutcome.noConfusion h2
            · simp only [newtonCliLoop, h0, hp, hfp0, h1, hc, if_false,
                Option.some.injEq] at h
              have := ih _ _ _ _ h
              rw [List.length_append] at this
              simp at this
              omega

/-- A CLI fixed-point loop ending in "Max iterations reached." printed
one row per remaining pass. -/
theorem fixedPointCliLoop_maxIter_length (g : Rat → Option Rat)
    (tol : Rat) :
    ∀ (fuel i : Nat) (x0 : Rat) (rows rows2 : List CliRow),
      fixedPointCliLoop g tol fuel i x0 rows = (rows2, .maxIter) →
      rows2.length = rows.length + fuel := by
  intro fuel
  induction fuel with
  | zero =>
    intro i x0 rows rows2 h
    simp only [fixedPointCliLoop] at h
    injection h with h1 h2
    rw [← h1]
    simp
  | succ n ih =>
    intro i x0 rows rows2 h
    rcases hg : g x0 with _ | x1
    · simp [fixedPointCliLoop, hg] at h
    · by_cases hc : pyAbs (x1 - x0) < tol
      · have heq : fixedPointCliLoop g tol (n+1) i x0 rows
            = (rows ++ [(⟨i, x1, x1, pyAbs (x1 - x0)⟩ : CliRow)],
                .converged x1) := by
          simp only [fixedPointCliLoop, hg]
          rw [if_pos hc]
        rw [heq] at h
        injection h with h1 h2
        exact CliOutcome.noConfusion h2
      · by_cases hbig : x1 > 10^10
        · simp [fixedPointCliLoop, hg, hc, hbig] at h
        · simp only [fixedPointCliLoop, hg, hc, hbig, if_false] at h
          have := ih _ _ _ _ h
          rw [List.length_append] at this
          simp at this
          omega

/-- A CLI modified-secant loop ending in "Max iterations reached."
printed one row per remaining pass. -/
theorem modSecantCliLoop_maxIter_length (f : Rat → Option Rat)
    (delta tol : Rat) :
    ∀ (fuel i : Nat) (x0 : Rat) (rows rows2 : List CliRow),
      modSecantCliLoop f delta tol fuel i x0 rows = (rows2, .maxIter) →
      rows2.length = rows.length + fuel := by
  intro fuel
  induction fuel with
  | zero =>
    intro i x0 rows rows2 h
    simp only [modSecantCliLoop] at h
    injection h with h1 h2
    rw [← h1]
    simp
  | succ n ih =>
    intro i x0 rows rows2 h
    rcases h0 : f x0 with _ | f0
    · rcases hd : f (x0 + delta * x0) with _ | f0d <;>
        simp [modSecantCliLoop, h0, hd] at h
    · rcases hd : f (x0 + delta * x0) with _ | f0d
      · simp [modSecantCliLoop, h0, hd] at h
      · by_cases hz : f0d - f0 = 0
        · simp [modSecantCliLoop, h0, hd, hz] at h
        · rcases h1 : f (x0 - delta * x0 * f0 / (f0d - f0)) with _ | f1
          · simp [modSecantCliLoop, h0, hd, hz, h1] at h
          · by_cases hc : pyAbs f1 < tol
                ∨ pyAbs (x0 - delta * x0 * f0 / (f0d - f0) - x0) < tol
            · have heq : modSecantCliLoop f delta tol (n+1) i x0 rows
                  = (rows ++ [(⟨i, x0 - delta * x0 * f0 / (f0d - f0), f1,
                        pyAbs (x0 - delta * x0 * f0 / (f0d - f0) - x0)⟩ :
                          CliRow)],
                      .converged (x0 - delta * x0 * f0 / (f0d - f0))) := by
                simp only [modSecantCliLoop, h0, hd, hz, h1, if_false]
                rw [if_pos hc]
              rw [heq] at h
              injection h with h1 h2
              exact CliOutcome.noConfusion h2
            · simp only [modSecantCliLoop, h0, hd, hz, h1, hc, if_false] at h
              have := ih _ _ _ _ h
              rw [List.length_append] at this
              simp at this
              omega

/-- C7 (amended): for every solver, every run that completes all
`max_iter` passes without meeting a convergence or failure condition -
that is, whose result is the rootless trace result (web) or the
"Max iterations reached." ending (CLI) - carries exactly `max_iter`
records, reports `converged = false` with no root, and attaches no
error entry: a normal reportable outcome, not a hard error.  (The web
result carries no "maximum iterations reached" description; the CLI
prints one.)  Six web conjuncts, then six CLI conjuncts. -/
theorem c7_exhaustion_outcome :
    (∀ (f : Rat → Option Rat) (a b tol : Rat) (n : Nat)
        (data : List IterationRecord),
      solve_bisection f a b tol n = .result data none →
      data.length = n
        ∧ (solve_bisection f a b tol n).convergedFlag = false
        ∧ (solve_bisection f a b tol n).errMsg = none) ∧
    (∀ (f : Rat → Option Rat) (a b tol : Rat) (n : Nat)
        (data : List IterationRecord),
      solve_regula_falsi f a b tol n = .result data none →
      data.length = n
        ∧ (solve_regula_falsi f a b tol n).convergedFlag = false
        ∧ (solve_regula_falsi f a b tol n).errMsg = none) ∧
    (∀ (f : Rat → Option Rat) (x0 x1 tol : Rat) (n : Nat)
        (data : List IterationRecord),
      solve_secant f x0 x1 tol n = .result data none →
      data.length = n
        ∧ (solve_secant f x0 x1 tol n).convergedFlag = false
        ∧ (solve_secant f x0 x1 tol n).errMsg = none) ∧
    (∀ (f fp : Rat → Option Rat) (x0 tol : Rat) (n : Nat)
        (data : List IterationRecord),
      solve_newton f fp x0 tol n = .result data none →
      data.length = n
        ∧ (solve_newton f fp x0 tol n).convergedFlag = false
        ∧ (solve_newton f fp x0 tol n).errMsg = none) ∧
    (∀ (g : Rat → Option Rat) (x0 tol : Rat) (n : Nat)
        (data : List IterationRecord),
      solve_fixed_point g x0 tol n = .result data none →
      data.length = n
        ∧ (solve_fixed_point g x0 tol n).convergedFlag = false
        ∧ (solve_fixed_point g x0 tol n).errMsg = none) ∧
    (∀ (f : Rat → Option Rat) (x0 delta tol : Rat) (n : Nat)
        (data : List IterationRecord),
      solve_mod_secant f x0 delta tol n = .result data none →
      data.length = n
        ∧ (solve_mod_secant f x0 delta tol n).convergedFlag = false
        ∧ (solve_mod_secant f x0 delta tol n).errMsg = none) ∧
    (∀ (f : Rat → Option Rat) (a b tol : Rat) (n : Nat)
        (rows : List CliRow),
      bisection_cli f a b tol n = (rows, .maxIter) → rows.length = n) ∧
    (∀ (f : Rat → Option Rat) (a b tol : Rat) (n : Nat)
        (rows : List CliRow),
      regula_falsi_cli f a b tol n = (rows, .maxIter) → rows.length = n) ∧
    (∀ (f : Rat → Option Rat) (x0 x1 tol : Rat) (n : Nat)
        (rows : List CliRow),
      secant_cli f x0 x1 tol n = (rows, .maxIter) → rows.length = n) ∧
    (∀ (f fp : Rat → Option Rat) (x0 tol : Rat) (n : Nat)
        (rows : List CliRow),
      newton_raphson_cli f fp x0 tol n = (rows, .maxIter) →
      rows.length = n) ∧
    (∀ (g : Rat → Option Rat) (x0 tol : Rat) (n : Nat)
        (rows : List CliRow),
      fixed_point_cli g x0 tol n = (rows, .maxIter) → rows.length = n) ∧
    (∀ (f : Rat → Option Rat) (x0 delta tol : Rat) (n : Nat)
        (rows : List CliRow),
      modified_secant_cli f x0 delta tol n = (rows, .maxIter) →
      rows.length = n) := by
  refine ⟨?_, ?_, ?_, ?_, ?_, ?_, ?_, ?_, ?_, ?_, ?_, ?_⟩
  · intro f a b tol n data h
    refine ⟨?_, by rw [h]; rfl, by rw [h]; rfl⟩
    rcases ha : f a with _ | va
    · simp [solve_bisection, ha] at h
    · rcases hb : f b with _ | vb
      · simp [solve_bisection, ha, hb] at h
      · by_cases hs : va * vb ≥ 0
        · simp [solve_bisection, ha, hb, hs] at h
        · simp only [solve_bisection, ha, hb, hs, if_false] at h
          simpa using bisectionLoop_none_length f tol n 1 a b va [] data h
  · intro f a b tol n data h
    refine ⟨?_, by rw [h]; rfl, by rw [h]; rfl⟩
    rcases ha : f a with _ | va
    · rcases hb : f b with _ | vb <;> simp [solve_regula_falsi, ha, hb] at h
    · rcases hb : f b with _ | vb
      · simp [solve_regula_falsi, ha, hb] at h
      · by_cases hs : va * vb ≥ 0
        · simp [solve_regula_falsi, ha, hb, hs] at h
        · simp only [solve_regula_falsi, ha, hb, hs, if_false] at h
          simpa using
            regulaLoop_none_length f tol n 1 a b va vb a [] data h
  · intro f x0 x1 tol n data h
    refine ⟨?_, by rw [h]; rfl, by rw [h]; rfl⟩
    simp only [solve_secant] at h
    simpa using secantLoop_none_length f tol n 1 x0 x1 [] data h
  · intro f fp x0 tol n data h
    refine ⟨?_, by rw [h]; rfl, by rw [h]; rfl⟩
    simp only [solve_newton] at h
    simpa using newtonLoop_none_length f fp tol n 1 x0 [] data h
  · intro g x0 tol n data h
    refine ⟨?_, by rw [h]; rfl, by rw [h]; rfl⟩
    simp only [solve_fixed_point] at h
    simpa using fixedPointLoop_none_length g tol n 1 x0 [] data h
  · intro f x0 delta tol n data h
    refine ⟨?_, by rw [h]; rfl, by rw [h]; rfl⟩
    simp only [solve_mod_secant] at h
    simpa using modSecantLoop_none_length f delta tol n 1 x0 [] data h
  · intro f a b tol n rows h
    rcases ha : f a with _ | va
    · simp [bisection_cli, ha] at h
    · rcases hb : f b with _ | vb
      · simp [bisection_cli, ha, hb] at h
      · by_cases hs : va * vb ≥ 0
        · simp [bisection_cli, ha, hb, hs] at h
        · simp only [bisection_cli, ha, hb, hs, if_false] at h
          simpa using
            bisectionCliLoop_maxIter_length f tol n 1 a b va [] rows h
  · intro f a b tol n rows h
    rcases ha : f a with _ | va
    · rcases hb : f b with _ | vb <;> simp [regula_falsi_cli, ha, hb] at h
    · rcases hb : f b with _ | vb
      · simp [regula_falsi_cli, ha, hb] at h
      · by_cases hs : va * vb ≥ 0
        · simp [regula_falsi_cli, ha, hb, hs] at h
        · simp only [regula_falsi_cli, ha, hb, hs, if_false] at h
          simpa using
            regulaCliLoop_maxIter_length f tol n 1 a b va vb a [] rows h
  · intro f x0 x1 tol n rows h
    simp only [secant_cli] at h
    simpa using secantCliLoop_maxIter_length f tol n 1 x0 x1 [] rows h
  · intro f fp x0 tol n rows h
    simp only [newton_raphson_cli] at h
    simpa using newtonCliLoop_maxIter_length f fp tol n 1 x0 [] rows h
  · intro g x0 tol n rows h
    simp only [fixed_point_cli] at h
    simpa using fixedPointCliLoop_maxIter_length g tol n 1 x0 [] rows h
  · intro f x0 delta tol n rows h
    simp only [modified_secant_cli] at h
    simpa using modSecantCliLoop_maxIter_length f delta tol n 1 x0 [] rows h

/-- Witness for C7 (amended) at a concrete input: a bisection run with
`tol = 0` that exhausts its three passes. -/
theorem c7_witness :
    ([(⟨1, 5/2, 9/4, 5⟩ : IterationRecord), ⟨2, 5/4, -39/16, 5/2⟩,
        ⟨3, 15/8, -31/64, 5/4⟩] : List IterationRecord).length = 3 ∧
    (solve_bisection (fun x => some (x * x - 4)) 0 5 0 3).convergedFlag
      = false ∧
    (solve_bisection (fun x => some (x * x - 4)) 0 5 0 3).errMsg = none :=
  c7_exhaustion_outcome.1 (fun x => some (x * x - 4)) 0 5 0 3
    [⟨1, 5/2, 9/4, 5⟩, ⟨2, 5/4, -39/16, 5/2⟩, ⟨3, 15/8, -31/64, 5/4⟩]
    (by norm_num [solve_bisection, bisectionLoop, bisectionUpdate, mkRecord,
      pyRound8, roundHalfEven, pyAbs])

/-! ### C8 -/

/-- C8 counterexample: bisection on `f(x) = x` over `[-1, 1]` with
`tol = 0` (tolerance positivity is expected but not enforced).  The sign
precondition holds at entry, the run executes three passes, yet the
bracket update after pass 1 (where `c = 0`, `f(c) = 0`, and no
convergence since `tol = 0`) installs the bracket `(0, 1)` with
`f(0) * f(1) = 0`, violating the sign invariant before pass 2, which is
not the last pass - refuting the claim as stated. -/
theorem c8_counterexample :
    ((-1 : Rat)) * 1 < 0 ∧
    solve_bisection (fun x => some x) (-1) 1 0 3
      = .result [⟨1, 0, 0, 2⟩, ⟨2, 1/2, 1/2, 1⟩, ⟨3, 3/4, 3/4, 1/2⟩] none ∧
    bisectionUpdate (-1) 1 (-1) 0 0 = (0, 1, 0) ∧
    ¬ ((0 : Rat) * 1 < 0) := by
  refine ⟨by norm_num, ?_, ?_, by norm_num⟩
  · norm_num [solve_bisection, bisectionLoop, bisectionUpdate, mkRecord,
      pyRound8, roundHalfEven, pyAbs]
  · norm_num [bisectionUpdate]

/-- C8 (amended): provided the tolerance is positive (so that an exact
zero residual triggers convergence and ends the run), the bracket
updates of bisection and regula falsi preserve the sign invariant at
every pass that continues: if the incoming bracket satisfies
`F a * F b < 0`, the stored value matches `F` at the stored endpoint,
and the pass did not converge, then the outgoing bracket again satisfies
the invariant (the endpoint sharing the sign of `F c` is the one
replaced).  With the initial precondition this gives the invariant
before every executed pass; with `tol ≤ 0` it can fail (see the
counterexample). -/
theorem c8_sign_invariant :
    (∀ (F : Rat → Rat) (tol a b fa c fc : Rat),
      0 < tol → fa = F a → fc = F c → F a * F b < 0 →
      ¬ (pyAbs fc < tol ∨ pyAbs (b - a) < tol) →
      (bisectionUpdate a b fa c fc).2.2 = F (bisectionUpdate a b fa c fc).1 ∧
      F (bisectionUpdate a b fa c fc).1
          * F (bisectionUpdate a b fa c fc).2.1 < 0) ∧
    (∀ (F : Rat → Rat) (tol a b fa fb pc c fc : Rat),
      0 < tol → fa = F a → fb = F b → fc = F c → F a * F b < 0 →
      ¬ (pyAbs fc < tol ∨ pyAbs (c - pc) < tol) →
      (regulaUpdate a b fa fb c fc).2.2.1
          = F (regulaUpdate a b fa fb c fc).1 ∧
      (regulaUpdate a b fa fb c fc).2.2.2
          = F (regulaUpdate a b fa fb c fc).2.1 ∧
      F (regulaUpdate a b fa fb c fc).1
          * F (regulaUpdate a b fa fb c fc).2.1 < 0) := by
  constructor
  · intro F tol a b fa c fc htol hfa hfc hsign hnc
    have hfc0 : fc ≠ 0 := by
      intro h
      apply hnc
      left
      rw [h]
      have : pyAbs 0 = 0 := by norm_num [pyAbs]
      rw [this]
      exact htol
    by_cases hb1 : fa * fc < 0
    · have hupd : bisectionUpdate a b fa c fc = (a, c, fa) := by
        simp only [bisectionUpdate]
        rw [if_pos hb1]
      rw [hupd]
      refine ⟨hfa, ?_⟩
      show F a * F c < 0
      rw [← hfa, ← hfc]
      exact hb1
    · have hfa0 : F a ≠ 0 := by
        intro h
        rw [h, zero_mul] at hsign
        exact lt_irrefl 0 hsign
      have hge : 0 ≤ fa * fc := not_lt.mp hb1
      have hpos : 0 < F a * F c := by
        rw [← hfa, ← hfc]
        exact lt_of_le_of_ne hge
          (Ne.symm (mul_ne_zero (by rw [hfa]; exact hfa0) hfc0))
      have hupd : bisectionUpdate a b fa c fc = (c, b, fc) := by
        simp only [bisectionUpdate]
        rw [if_neg hb1]
      rw [hupd]
      refine ⟨hfc, ?_⟩
      show F c * F b < 0
      by_contra hge2
      have h1 : 0 ≤ F c * F b := not_lt.mp hge2
      have h2 : (F a * F c) * (F a * F b) < 0 :=
        mul_neg_of_pos_of_neg hpos hsign
      have h3 : 0 ≤ (F a)^2 * (F c * F b) := mul_nonneg (sq_nonneg _) h1
      have h4 : (F a * F c) * (F a * F b) = (F a)^2 * (F c * F b) := by ring
      rw [h4] at h2
      linarith
  · intro F tol a b fa fb pc c fc htol hfa hfb hfc hsign hnc
    have hfc0 : fc ≠ 0 := by
      intro h
      apply hnc
      left
      rw [h]
      have : pyAbs 0 = 0 := by norm_num [pyAbs]
      rw [this]
      exact htol
    by_cases hb1 : fa * fc < 0
    · have hupd : regulaUpdate a b fa fb c fc = (a, c, fa, fc) := by
        simp only [regulaUpdate]
        rw [if_pos hb1]
      rw [hupd]
      refine ⟨hfa, hfc, ?_⟩
      show F a * F c < 0
      rw [← hfa, ← hfc]
      exact hb1
    · have hfa0 : F a ≠ 0 := by
        intro h
        rw [h, zero_mul] at hsign
        exact lt_irrefl 0 hsign
      have hge : 0 ≤ fa * fc := not_lt.mp hb1
      have hpos : 0 < F a * F c := by
        rw [← hfa, ← hfc]
        exact lt_of_le_of_ne hge
          (Ne.symm (mul_ne_zero (by rw [hfa]; exact hfa0) hfc0))
      have hupd : regulaUpdate a b fa fb c fc = (c, b, fc, fb) := by
        simp only [regulaUpdate]
        rw [if_neg hb1]
      rw [hupd]
      refine ⟨hfc, hfb, ?_⟩
      show F c * F b < 0
      by_contra hge2
      have h1 : 0 ≤ F c * F b := not_lt.mp hge2
      have h2 : (F a * F c) * (F a * F b) < 0 :=
        mul_neg_of_pos_of_neg hpos hsign
      have h3 : 0 ≤ (F a)^2 * (F c * F b) := mul_nonneg (sq_nonneg _) h1
      have h4 : (F a * F c) * (F a * F b) = (F a)^2 * (F c * F b) := by ring
      rw [h4] at h2
      linarith

/-- Witness for C8 (amended) at a concrete input: one non-converging
bisection pass of `f(x) = x^2 - 4` on `[0, 5]` preserves the invariant. -/
theorem c8_witness :
    (bisectionUpdate 0 5 (-4) (5/2) (9/4)).2.2
        = (fun x => x * x - 4) (bisectionUpdate 0 5 (-4) (5/2) (9/4)).1 ∧
    (fun x => x * x - 4) (bisectionUpdate 0 5 (-4) (5/2) (9/4)).1
        * (fun x => x * x - 4) (bisectionUpdate 0 5 (-4) (5/2) (9/4)).2.1
      < 0 :=
  c8_sign_invariant.1 (fun x => x * x - 4) (1/10) 0 5 (-4) (5/2) (9/4)
    (by norm_num) (by norm_num) (by norm_num) (by norm_num)
    (by norm_num [pyAbs])

end ZOF
